import Mathlib

/-! # RAG-based Interface Agent: questionnaire wizard

A shallow embedding of the two state-bearing React components of the client,
`src/components/Questionnaire.js` (the answer collector) and `src/App.js` (the
flow controller), together with the fragment of JavaScript semantics their
code relies on:

* property keys of an ordinary object are strings; a numeric id used as a
  computed key is converted with `ToString`, which prints the plain decimal
  expansion below `10^21` and the exponent form (`1e+21`) from there on;
* `Object.entries` enumerates own properties with the array-index keys first,
  in ascending numeric order, followed by the other string keys in the order
  in which they were created;
* `parseInt` reads an optional sign and the longest prefix of digits.

Question ids are integers (`Int`).  Option strings and answers are `String`.
React state cells are fields of a record, and a handler is a function from
the record to the next record.  The handlers of `App` run in a monad with
exceptions and state, so that `try`/`catch` keeps its meaning.
-/

set_option maxRecDepth 8000

/-! ## JavaScript primitives -/

namespace JS

/-- The decimal digit character of `d` (for `d < 10`). -/
def digitChar (d : Nat) : Char := Char.ofNat (48 + d)

/-- A character is a decimal digit character. -/
def IsDecDigit (c : Char) : Prop := ∃ d, d < 10 ∧ c = digitChar d

/-- Decimal digits of `n`, most significant first, in front of `acc`. -/
def natDigitsAux : Nat → Nat → List Char → List Char
  | 0, _, acc => acc
  | fuel + 1, n, acc =>
    if n < 10 then digitChar n :: acc
    else natDigitsAux fuel (n / 10) (digitChar (n % 10) :: acc)

/-- Decimal digits of a natural number; `natDigits 0 = ['0']`. -/
def natDigits (n : Nat) : List Char := natDigitsAux (n + 1) n []

/-- The characters `parseInt` skips at the start (`StrWhiteSpaceChar`). -/
def isStrWhiteSpaceChar (c : Char) : Bool :=
  let n := c.toNat
  n == 0x09 || n == 0x0A || n == 0x0B || n == 0x0C || n == 0x0D || n == 0x20 ||
  n == 0xA0 || n == 0x1680 || (0x2000 ≤ n && n ≤ 0x200A) || n == 0x2028 ||
  n == 0x2029 || n == 0x202F || n == 0x205F || n == 0x3000 || n == 0xFEFF

/-- The value of `c` as a digit in the given radix, if it is one. -/
def digitValue (radix : Nat) (c : Char) : Option Nat :=
  let n := c.toNat
  let v : Option Nat :=
    if 48 ≤ n ∧ n ≤ 57 then some (n - 48)
    else if 97 ≤ n ∧ n ≤ 122 then some (n - 87)
    else if 65 ≤ n ∧ n ≤ 90 then some (n - 55)
    else none
  v.filter (fun d => d < radix)

/-- The mathematical value of a digit sequence in the given radix. -/
def digitsValue (radix : Nat) (cs : List Char) : Nat :=
  cs.foldl (fun acc c => acc * radix + (digitValue radix c).getD 0) 0

/-- A digit sequence without its trailing zeros. -/
def stripTrailingZeros (ds : List Char) : List Char :=
  (ds.reverse.dropWhile (fun c => c == '0')).reverse

/-- The exponent form `d.ddde+x` of `Number::toString`: with `s` the digits of
the value without trailing zeros and `x` one less than the number of digits of
the value, the first digit of `s`, a point and the other digits of `s` when
there are any, then `e+` and `x` in decimal. -/
def exponentForm (n : Nat) : List Char :=
  let ds := natDigits n
  let s := stripTrailingZeros ds
  s.take 1 ++ (if s.tail = [] then [] else '.' :: s.tail) ++
    'e' :: '+' :: natDigits (ds.length - 1)

/-- The operation `Number::toString` on a non-negative integer: the plain
decimal expansion below `10^21`, the exponent form from `10^21` on. -/
def natToString (n : Nat) : List Char :=
  if n < 1000000000000000000000 then natDigits n else exponentForm n

/-- The operation `Number::toString` on an integer-valued Number, with a
leading minus sign for negative values.  Numbers are idealised as exact
integers, so the digits printed are those of the exact value; for a double
above `2^53` JavaScript prints the fewest digits that identify it, in the same
form (plain below `10^21`, exponent from `10^21` on). -/
def numberToString : Int → String
  | Int.ofNat n => String.mk (natToString n)
  | Int.negSucc n => String.mk ('-' :: natToString (n + 1))

/-- Reading back the output of `natToString`: the digits before `e` (the
point left out) scaled by the power of ten that the exponent after `e+` asks
for; without an `e`, the value of the digits. -/
def decodeNat (cs : List Char) : Nat :=
  let mant := (cs.takeWhile (fun c => c != 'e')).filter (fun c => c != '.')
  let rest := cs.dropWhile (fun c => c != 'e')
  if rest = [] then digitsValue 10 mant
  else digitsValue 10 mant * 10 ^ (digitsValue 10 (rest.drop 2) + 1 - mant.length)

/-- Reading back the output of `numberToString`. -/
def decodeNumber (s : String) : Int :=
  if s.data.head? = some '-' then -(decodeNat s.data.tail : Int) else (decodeNat s.data : Int)

/-- The operation `ToPropertyKey` on a value that is a Number or `undefined` (`none`), as in
`userAnswers[questionId]` and in the computed key `[questionId]`. -/
def toPropertyKey : Option Int → String
  | some n => numberToString n
  | none => "undefined"

/-- The number `parseInt` reads from what follows the sign: a `0x`/`0X` prefix
selects radix 16, otherwise the radix is 10, and the value is that of the
longest prefix of digits; `none` (`NaN`) when that prefix is empty. -/
def parseMagnitude (s2 : List Char) : Option Nat :=
  let hex : Bool := s2.take 2 = ['0', 'x'] ∨ s2.take 2 = ['0', 'X']
  let radix : Nat := if hex then 16 else 10
  let s3 := if hex then s2.drop 2 else s2
  let z := s3.takeWhile (fun c => (digitValue radix c).isSome)
  if z = [] then none else some (digitsValue radix z)

/-- The function `parseInt(string)` with the radix argument absent; `none` is `NaN`.
Leading white space is skipped, one sign is read, then the magnitude. -/
def parseInt (s : String) : Option Int :=
  let s1 := s.data.dropWhile isStrWhiteSpaceChar
  let sign : Int := if s1.head? = some '-' then -1 else 1
  let s2 := if s1.head? = some '-' ∨ s1.head? = some '+' then s1.tail else s1
  match parseMagnitude s2 with
  | some m => some (sign * (m : Int))
  | none => none

/-- The array index denoted by a property key, if the key is one: the key is
the canonical string of an integer `n` with `0 ≤ n < 2^32 - 1`. -/
def arrayIndex? (k : String) : Option Nat :=
  match parseInt k with
  | some (Int.ofNat n) => if numberToString (Int.ofNat n) = k ∧ n < 2 ^ 32 - 1 then some n else none
  | _ => none

/-- Whether a property key is an array index. -/
def isArrayIndex (k : String) : Bool := (arrayIndex? k).isSome

/-- The numeric index of a property entry (`0` when its key is not an array index). -/
def entryIndex (p : String × String) : Nat := (arrayIndex? p.1).getD 0

/-- Ascending numeric order of array-index keys. -/
def indexLE (p q : String × String) : Prop := entryIndex p ≤ entryIndex q

instance : DecidableRel indexLE :=
  fun p q => inferInstanceAs (Decidable (entryIndex p ≤ entryIndex q))

instance : IsTotal (String × String) indexLE := ⟨fun _ _ => Nat.le_total _ _⟩

instance : IsTrans (String × String) indexLE := ⟨fun _ _ _ h1 h2 => Nat.le_trans h1 h2⟩

/-- The comparison `a < b` of two Numbers that are integers or `NaN` (`none`):
false as soon as one side is `NaN`. -/
def numLT (a b : Option Int) : Prop := a.isSome ∧ b.isSome ∧ a.getD 0 < b.getD 0

instance : DecidableRel numLT :=
  fun a b => inferInstanceAs (Decidable (a.isSome ∧ b.isSome ∧ a.getD 0 < b.getD 0))

/-- An ordinary object whose property values are strings: its own properties in
order of creation. -/
structure Object where
  props : List (String × String)
deriving DecidableEq

namespace Object

/-- The object literal `{}`. -/
def empty : Object := ⟨[]⟩

/-- Property read `o[k]`; `none` is `undefined`.  Only own properties are
looked up: the keys the component reads are decimal numerals or `undefined`,
none of which names a property inherited from `Object.prototype`. -/
def get (o : Object) (k : String) : Option String := o.props.lookup k

/-- The own property keys of `o`, in order of creation. -/
def keys (o : Object) : List String := o.props.map Prod.fst

/-- The function `Object.entries(o)`: array-index keys in ascending numeric order, then the
other keys in order of creation. -/
def entries (o : Object) : List (String × String) :=
  (o.props.filter (fun p => isArrayIndex p.1)).insertionSort indexLE ++
    o.props.filter (fun p => !isArrayIndex p.1)

/-- The operation `CreateDataProperty`: an existing property keeps its place and takes the
new value, a new property is created last. -/
def define (o : Object) (k v : String) : Object :=
  if o.props.any (fun p => p.1 == k) then
    ⟨o.props.map (fun p => if p.1 = k then (k, v) else p)⟩
  else ⟨o.props ++ [(k, v)]⟩

/-- The spread `{...o}`: a fresh object receiving the enumerable own properties
of `o` in enumeration order. -/
def spread (o : Object) : Object := ⟨o.entries⟩

end Object

/-- A Number shown to the user: a finite value (kept exact), an infinity or `NaN`. -/
inductive JSNumber where
  | finite (q : ℚ)
  | posInfinity
  | negInfinity
  | nan
deriving DecidableEq

/-- Division of two non-negative integers as Numbers: `x / 0` is `Infinity`
for `x > 0` and `NaN` for `x = 0`. -/
def divNat (a b : Nat) : JSNumber :=
  if b = 0 then (if a = 0 then JSNumber.nan else JSNumber.posInfinity)
  else JSNumber.finite ((a : ℚ) / (b : ℚ))

/-- Multiplication of a Number by a positive integer constant. -/
def mulPos (x : JSNumber) (c : Nat) : JSNumber :=
  match x with
  | JSNumber.finite q => JSNumber.finite (q * (c : ℚ))
  | other => other

end JS

/-! ## `components/Questionnaire.js` -/

namespace Questionnaire

open JS

/-- A question as delivered by `GET /questions`. -/
structure Question where
  id : Int
  question : String
  options : List String
deriving DecidableEq

/-- One element of the array passed to `onSubmit`; `question_id = none` is `NaN`. -/
structure FormattedAnswer where
  question_id : Option Int
  answer : String
deriving DecidableEq

/-- The three `useState` cells of the component. -/
structure State where
  currentQuestionIndex : Nat
  userAnswers : Object
  showAll : Bool
deriving DecidableEq

/-- The initial values `useState(0)`, `useState({})`, `useState(false)`. -/
def initialState : State := ⟨0, Object.empty, false⟩

/-- The expression `questions[currentQuestionIndex]`; `none` is `undefined`. -/
def currentQuestion (questions : List Question) (s : State) : Option Question :=
  questions[s.currentQuestionIndex]?

/-- The expression `((currentQuestionIndex + 1) / questions.length) * 100`. -/
def progress (questions : List Question) (s : State) : JSNumber :=
  mulPos (divNat (s.currentQuestionIndex + 1) questions.length) 100

/-- The handler `handleAnswerSelect`: `setUserAnswers(prev => ({...prev, [questionId]: answer}))`. -/
def handleAnswerSelect (questionId : Option Int) (answer : String) (s : State) : State :=
  { s with userAnswers := s.userAnswers.spread.define (toPropertyKey questionId) answer }

/-- The handler `handleNext`: advance when `currentQuestionIndex < questions.length - 1`. -/
def handleNext (questions : List Question) (s : State) : State :=
  if (s.currentQuestionIndex : Int) < (questions.length : Int) - 1 then
    { s with currentQuestionIndex := s.currentQuestionIndex + 1 }
  else s

/-- The handler `handlePrevious`: go back when `currentQuestionIndex > 0`. -/
def handlePrevious (s : State) : State :=
  if s.currentQuestionIndex > 0 then
    { s with currentQuestionIndex := s.currentQuestionIndex - 1 }
  else s

/-- The array `formattedAnswers` that `handleSubmit` passes to `onSubmit`. -/
def handleSubmit (s : State) : List FormattedAnswer :=
  s.userAnswers.entries.map (fun p => { question_id := parseInt p.1, answer := p.2 })

/-- The predicate `isAnswered`: `userAnswers[questionId] !== undefined`. -/
def isAnswered (s : State) (questionId : Option Int) : Bool :=
  (s.userAnswers.get (toPropertyKey questionId)).isSome

/-- The value `allQuestionsAnswered`: `questions.every(q => isAnswered(q.id))`. -/
def allQuestionsAnswered (questions : List Question) (s : State) : Bool :=
  questions.all (fun q => isAnswered s (some q.id))

/-- The state setter `setShowAll(b)`. -/
def setShowAll (b : Bool) (s : State) : State := { s with showAll := b }

/-- The event handlers attached to the rendered controls. -/
inductive Handler where
  | handlePrevious
  | handleNext
  | handleSubmit
  | setShowAll (b : Bool)
  | handleAnswerSelect (questionId : Int) (answer : String)
deriving DecidableEq

/-- A rendered `<button>`: its text, its `onClick` handler and its `disabled` attribute. -/
structure Button where
  text : String
  onClick : Handler
  disabled : Bool
deriving DecidableEq

/-- A rendered radio `<input>`: its `value`, `checked` and `onChange`. -/
structure Radio where
  value : String
  checked : Bool
  onChange : Handler
deriving DecidableEq

/-- The radio inputs of one question: one per option, checked when
`userAnswers[question.id] === option`. -/
def radios (s : State) (q : Question) : List Radio :=
  q.options.map (fun option =>
    { value := option
      checked := s.userAnswers.get (toPropertyKey (some q.id)) == some option
      onChange := Handler.handleAnswerSelect q.id option })

/-- What the component renders: the bulk view (`showAll`) or the sequential view. -/
inductive View where
  | all (toggle : Button) (cards : List (List Radio)) (submit : Button) (warning : Bool)
  | sequential (progress : JSNumber) (options : List Radio)
      (previous toggle forward : Button) (instruction : Bool)
deriving DecidableEq

/-- The forward button of the sequential view: `Suivant` while
`currentQuestionIndex < questions.length - 1`, `Terminer` otherwise. -/
def forwardButton (questions : List Question) (s : State) : Button :=
  if (s.currentQuestionIndex : Int) < (questions.length : Int) - 1 then
    { text := "Suivant"
      onClick := Handler.handleNext
      disabled := !isAnswered s ((currentQuestion questions s).map (fun q => q.id)) }
  else
    { text := "Terminer"
      onClick := Handler.handleSubmit
      disabled := !allQuestionsAnswered questions s }

/-- The render function of the component. -/
def render (questions : List Question) (s : State) : View :=
  if s.showAll then
    View.all
      { text := "Vue par question", onClick := Handler.setShowAll false, disabled := false }
      (questions.map (radios s))
      { text := "Analyser mes réponses"
        onClick := Handler.handleSubmit
        disabled := !allQuestionsAnswered questions s }
      (!allQuestionsAnswered questions s)
  else
    View.sequential (progress questions s)
      (match currentQuestion questions s with
        | some q => radios s q
        | none => [])
      { text := "Précédent"
        onClick := Handler.handlePrevious
        disabled := s.currentQuestionIndex == 0 }
      { text := "Voir tout", onClick := Handler.setShowAll true, disabled := false }
      (forwardButton questions s)
      (!isAnswered s ((currentQuestion questions s).map (fun q => q.id)))

/-- The buttons present in a view. -/
def View.buttons : View → List Button
  | View.all toggle _ submit _ => [toggle, submit]
  | View.sequential _ _ previous toggle forward _ => [previous, toggle, forward]

/-- The radio inputs present in a view. -/
def View.radioInputs : View → List Radio
  | View.all _ cards _ _ => cards.flatten
  | View.sequential _ options _ _ _ _ => options

/-- Running a handler: the next state and the argument of the `onSubmit` call
it makes, if it makes one. -/
def runHandler (questions : List Question) (h : Handler) (s : State) :
    State × Option (List FormattedAnswer) :=
  match h with
  | Handler.handlePrevious => (handlePrevious s, none)
  | Handler.handleNext => (handleNext questions s, none)
  | Handler.handleSubmit => (s, some (handleSubmit s))
  | Handler.setShowAll b => (setShowAll b s, none)
  | Handler.handleAnswerSelect questionId answer =>
      (handleAnswerSelect (some questionId) answer s, none)

/-- A click on a rendered button: a disabled button dispatches no event. -/
def click (questions : List Question) (b : Button) (s : State) :
    State × Option (List FormattedAnswer) :=
  if b.disabled then (s, none) else runHandler questions b.onClick s

/-- The forward button of a view, when it has one (the sequential view). -/
def View.forward? : View → Option Button
  | View.all _ _ _ _ => none
  | View.sequential _ _ _ _ forward _ => some forward

/-- The two navigation handlers. -/
inductive Nav where
  | next
  | previous
deriving DecidableEq

/-- The state after a sequence of `handleNext` / `handlePrevious` calls from `s`. -/
def navigate (questions : List Question) (ops : List Nav) (s : State) : State :=
  ops.foldl (fun st op =>
    match op with
    | Nav.next => handleNext questions st
    | Nav.previous => handlePrevious st) s

/-- The state after a sequence of `handleAnswerSelect` calls from `s`. -/
def selectAll (calls : List (Int × String)) (s : State) : State :=
  calls.foldl (fun st c => handleAnswerSelect (some c.1) c.2 st) s

/-- The option of the last call for `questionId` in a sequence of calls. -/
def lastAnswer (calls : List (Int × String)) (questionId : Int) : Option String :=
  (calls.reverse.find? (fun c => c.1 = questionId)).map (fun c => c.2)

end Questionnaire

/-! ## `services/api.js` and `App.js` -/

namespace App

open Questionnaire

/-- The value a rejected request throws. -/
structure ApiError where
  message : String
deriving DecidableEq

/-- One per-domain prediction of the analysis report. -/
structure Prediction where
  domaine : String
  score : Nat
  confiance : String
  raisons : List String
deriving DecidableEq

/-- The body of the response to `POST /analyze`. -/
structure AnalysisResult where
  resume_global : String
  top_3_recommandations : List String
  predictions : List Prediction
deriving DecidableEq

/-- The body of the response to `GET /questions`; the `questions` field may be absent. -/
structure QuestionnaireData where
  questions : Option (List Question)
deriving DecidableEq

/-- The requests `questionnaireAPI` can send. -/
inductive ApiCall where
  | getQuestions
  | analyzeResponses (answers : List FormattedAnswer)
  | healthCheck
deriving DecidableEq

/-- The server as seen through `questionnaireAPI`: each request either resolves
with `response.data` or rejects.  A resolved `getQuestions` may carry no body
(`none`), in which case reading `.questions` from it throws. -/
structure Backend where
  getQuestions : Except ApiError (Option QuestionnaireData)
  analyzeResponses : List FormattedAnswer → Except ApiError AnalysisResult

/-- The five `useState` cells of `App`. -/
structure AppState where
  currentStep : String
  questions : List Question
  answers : List FormattedAnswer
  results : Option AnalysisResult
  error : Option String
deriving DecidableEq

/-- The initial values of the state cells. -/
def initialAppState : AppState :=
  { currentStep := "loading", questions := [], answers := [], results := none, error := none }

/-- What a handler acts on: the state cells and the log of requests sent so far. -/
structure World where
  state : AppState
  calls : List ApiCall
deriving DecidableEq

/-- Handler code: it updates the world and either completes or throws. -/
abbrev Effect := ExceptT ApiError (StateM World)

/-- The state setter `setCurrentStep(v)`. -/
def setCurrentStep (v : String) : Effect Unit :=
  modify (fun w => { w with state := { w.state with currentStep := v } })

/-- The state setter `setQuestions(v)`. -/
def setQuestions (v : List Question) : Effect Unit :=
  modify (fun w => { w with state := { w.state with questions := v } })

/-- The state setter `setAnswers(v)`. -/
def setAnswers (v : List FormattedAnswer) : Effect Unit :=
  modify (fun w => { w with state := { w.state with answers := v } })

/-- The state setter `setResults(v)`. -/
def setResults (v : Option AnalysisResult) : Effect Unit :=
  modify (fun w => { w with state := { w.state with results := v } })

/-- The state setter `setError(v)`. -/
def setError (v : Option String) : Effect Unit :=
  modify (fun w => { w with state := { w.state with error := v } })

/-- Awaiting a request: it is logged, then its value is returned or its
rejection is thrown. -/
def await {α : Type} (call : ApiCall) (response : Except ApiError α) : Effect α := do
  modify (fun w => { w with calls := w.calls ++ [call] })
  match response with
  | Except.ok a => pure a
  | Except.error err => throw err

/-- Reading `questionnaireData.questions`: a `TypeError` when there is no body. -/
def questionsField (questionnaireData : Option QuestionnaireData) :
    Effect (Option (List Question)) :=
  match questionnaireData with
  | some d => pure d.questions
  | none => throw ⟨"TypeError: Cannot read properties of null"⟩

/-- The message `loadQuestions` stores when it fails. -/
def loadErrorMessage : String :=
  "Impossible de charger les questions. Vérifiez que le serveur API est démarré."

/-- The message `handleAnswerSubmit` stores when it fails. -/
def analyzeErrorMessage : String :=
  "Erreur lors de l\x27analyse des réponses. Veuillez réessayer."

/-- The handler `loadQuestions`. -/
def loadQuestions (api : Backend) : Effect Unit :=
  tryCatch
    (do
      setCurrentStep "loading"
      let questionnaireData ← await ApiCall.getQuestions api.getQuestions
      let questions ← questionsField questionnaireData
      setQuestions (questions.getD [])
      setCurrentStep "questionnaire")
    (fun _err => do
      setError (some loadErrorMessage)
      setCurrentStep "error")

/-- The handler `handleAnswerSubmit`. -/
def handleAnswerSubmit (api : Backend) (userAnswers : List FormattedAnswer) : Effect Unit :=
  tryCatch
    (do
      setCurrentStep "loading"
      setAnswers userAnswers
      let analysisResults ←
        await (ApiCall.analyzeResponses userAnswers) (api.analyzeResponses userAnswers)
      setResults (some analysisResults)
      setCurrentStep "results")
    (fun _err => do
      setError (some analyzeErrorMessage)
      setCurrentStep "error")

/-- The handler `handleRestart`. -/
def handleRestart : Effect Unit := do
  setAnswers []
  setResults none
  setError none
  setCurrentStep "questionnaire"

/-- Running a handler from a state with an empty request log: whether it
completed (`Except.ok`) or let an exception escape, and the world it leaves. -/
def run (handler : Effect Unit) (s : AppState) : Except ApiError Unit × World :=
  (ExceptT.run handler).run { state := s, calls := [] }

end App

/-! ## Properties of the JavaScript primitives -/

namespace JS

theorem digitValue_digitChar (d : Nat) (h : d < 10) :
    digitValue 10 (digitChar d) = some d := by
  interval_cases d <;> rfl

theorem IsDecDigit.digitValue_isSome {c : Char} (h : IsDecDigit c) :
    (digitValue 10 c).isSome = true := by
  obtain ⟨d, hd, rfl⟩ := h
  rw [digitValue_digitChar d hd]; rfl

theorem IsDecDigit.not_space {c : Char} (h : IsDecDigit c) :
    isStrWhiteSpaceChar c = false := by
  obtain ⟨d, hd, rfl⟩ := h
  interval_cases d <;> rfl

theorem IsDecDigit.not_sign {c : Char} (h : IsDecDigit c) : c ≠ '-' ∧ c ≠ '+' := by
  obtain ⟨d, hd, rfl⟩ := h
  interval_cases d <;> decide

theorem IsDecDigit.not_x {c : Char} (h : IsDecDigit c) : c ≠ 'x' ∧ c ≠ 'X' := by
  obtain ⟨d, hd, rfl⟩ := h
  interval_cases d <;> decide

theorem natDigitsAux_digits (fuel : Nat) :
    ∀ (n : Nat) (acc : List Char), (∀ c ∈ acc, IsDecDigit c) →
      ∀ c ∈ natDigitsAux fuel n acc, IsDecDigit c := by
  induction fuel with
  | zero => intro n acc hacc; simpa [natDigitsAux] using hacc
  | succ fuel ih =>
    intro n acc hacc
    unfold natDigitsAux
    split_ifs with hn
    · intro c hc
      rcases List.mem_cons.1 hc with rfl | hc
      · exact ⟨n, hn, rfl⟩
      · exact hacc c hc
    · apply ih
      intro c hc
      rcases List.mem_cons.1 hc with rfl | hc
      · exact ⟨n % 10, Nat.mod_lt _ (by decide), rfl⟩
      · exact hacc c hc

theorem natDigitsAux_ne_nil (fuel : Nat) :
    ∀ (n : Nat) (acc : List Char), acc ≠ [] → natDigitsAux fuel n acc ≠ [] := by
  induction fuel with
  | zero => intro n acc hacc; simpa [natDigitsAux] using hacc
  | succ fuel ih =>
    intro n acc _
    unfold natDigitsAux
    split_ifs
    · exact List.cons_ne_nil _ _
    · exact ih _ _ (List.cons_ne_nil _ _)

theorem natDigitsAux_value (fuel : Nat) :
    ∀ (n : Nat) (acc : List Char), n < fuel →
      (natDigitsAux fuel n acc).foldl (fun v c => v * 10 + (digitValue 10 c).getD 0) 0 =
        acc.foldl (fun v c => v * 10 + (digitValue 10 c).getD 0) n := by
  induction fuel with
  | zero => intro n acc h; omega
  | succ fuel ih =>
    intro n acc h
    unfold natDigitsAux
    split_ifs with hn
    · simp [List.foldl_cons, digitValue_digitChar n hn]
    · have h10 : n / 10 < fuel := by omega
      rw [ih (n / 10) _ h10]
      have hm : n % 10 < 10 := Nat.mod_lt _ (by decide)
      simp only [List.foldl_cons, digitValue_digitChar _ hm, Option.getD_some]
      have : n / 10 * 10 + n % 10 = n := by omega
      rw [this]

theorem natDigits_digits (n : Nat) : ∀ c ∈ natDigits n, IsDecDigit c :=
  natDigitsAux_digits _ _ _ (by simp)

theorem natDigits_ne_nil (n : Nat) : natDigits n ≠ [] := by
  unfold natDigits natDigitsAux
  split_ifs
  · exact List.cons_ne_nil _ _
  · exact natDigitsAux_ne_nil _ _ _ (List.cons_ne_nil _ _)

theorem digitsValue_natDigits (n : Nat) : digitsValue 10 (natDigits n) = n := by
  unfold digitsValue natDigits
  rw [natDigitsAux_value (n + 1) n [] (Nat.lt_succ_self n)]
  rfl

theorem parseMagnitude_natDigits (n : Nat) : parseMagnitude (natDigits n) = some n := by
  have hd := natDigits_digits n
  have hne := natDigits_ne_nil n
  have hv := digitsValue_natDigits n
  generalize natDigits n = ds at hd hne hv
  have hhex : ¬ (ds.take 2 = ['0', 'x'] ∨ ds.take 2 = ['0', 'X']) := by
    match ds, hd with
    | [], _ => simp
    | [c], _ => simp
    | c :: c2 :: rest, hd =>
      have h2 := (hd c2 (by simp)).not_x
      simp [h2.1, h2.2]
  have htw : ds.takeWhile (fun c => (digitValue 10 c).isSome) = ds := by
    rw [List.takeWhile_eq_self_iff]
    intro c hc
    exact (hd c hc).digitValue_isSome
  simp only [parseMagnitude, hhex, decide_False, Bool.false_eq_true, if_false, htw, hne, hv]

theorem parseMagnitude_natToString (n : Nat) (h : n < 1000000000000000000000) :
    parseMagnitude (natToString n) = some n := by
  unfold natToString
  rw [if_pos h]
  exact parseMagnitude_natDigits n

theorem natToString_small (n : Nat) (h : n < 1000000000000000000000) :
    natToString n = natDigits n := by
  unfold natToString
  rw [if_pos h]

theorem parseInt_numberToString (n : Int) (h : n.natAbs < 1000000000000000000000) :
    parseInt (numberToString n) = some n := by
  cases n with
  | ofNat m =>
    have hm : m < 1000000000000000000000 := h
    have hd := natDigits_digits m
    have hne := natDigits_ne_nil m
    have hp := parseMagnitude_natDigits m
    obtain ⟨c, rest, hcr⟩ := List.exists_cons_of_ne_nil hne
    have hc : IsDecDigit c := hd c (by simp [hcr])
    have hs := hc.not_sign
    simp only [numberToString, parseInt, natToString_small m hm, hcr] at hp ⊢
    simp [List.dropWhile, hc.not_space, hs.1, hs.2, hp]
  | negSucc m =>
    have hm : m + 1 < 1000000000000000000000 := h
    have hp := parseMagnitude_natDigits (m + 1)
    have hsp : isStrWhiteSpaceChar '-' = false := by rfl
    simp only [numberToString, parseInt, natToString_small (m + 1) hm]
    simp [List.dropWhile, hsp, hp]
    rw [Int.negSucc_eq]
    omega

theorem IsDecDigit.not_mark {c : Char} (h : IsDecDigit c) :
    c ≠ 'e' ∧ c ≠ '.' ∧ c ≠ '-' := by
  obtain ⟨d, hd, rfl⟩ := h
  interval_cases d <;> decide

theorem foldl_zeros (zs : List Char) (hz : ∀ c ∈ zs, c = '0') :
    ∀ v : Nat, zs.foldl (fun v c => v * 10 + (digitValue 10 c).getD 0) v = v * 10 ^ zs.length := by
  induction zs with
  | nil => intro v; simp
  | cons c zs ih =>
    intro v
    have hc : c = '0' := hz c (by simp)
    have h0 : (digitValue 10 '0').getD 0 = 0 := by rfl
    rw [List.foldl_cons, ih (fun x hx => hz x (List.mem_cons_of_mem _ hx)), hc, h0,
      List.length_cons, pow_succ]
    ring

theorem stripTrailingZeros_append (ds : List Char) :
    ∃ zs : List Char, (∀ c ∈ zs, c = '0') ∧ ds = stripTrailingZeros ds ++ zs := by
  refine ⟨(ds.reverse.takeWhile (fun c => c == '0')).reverse, ?_, ?_⟩
  · intro c hc
    have h1 := List.mem_takeWhile_imp (List.mem_reverse.1 hc)
    simpa using h1
  · unfold stripTrailingZeros
    rw [← List.reverse_append, List.takeWhile_append_dropWhile, List.reverse_reverse]

theorem mem_stripTrailingZeros {ds : List Char} {c : Char} (h : c ∈ stripTrailingZeros ds) :
    c ∈ ds := by
  unfold stripTrailingZeros at h
  exact List.mem_reverse.1 ((List.dropWhile_sublist _).subset (List.mem_reverse.1 h))

theorem digitsValue_stripTrailingZeros (ds : List Char) :
    digitsValue 10 ds =
      digitsValue 10 (stripTrailingZeros ds) * 10 ^ (ds.length - (stripTrailingZeros ds).length) := by
  obtain ⟨zs, hz, hds⟩ := stripTrailingZeros_append ds
  have hlen : ds.length = (stripTrailingZeros ds).length + zs.length := by
    have := congrArg List.length hds
    rwa [List.length_append] at this
  have hval : digitsValue 10 ds = digitsValue 10 (stripTrailingZeros ds ++ zs) :=
    congrArg (digitsValue 10) hds
  rw [hval]
  unfold digitsValue
  rw [List.foldl_append, foldl_zeros zs hz]
  congr 2
  omega

theorem filter_point_of_digits (l : List Char) (h : ∀ c ∈ l, IsDecDigit c) :
    l.filter (fun c => c != '.') = l := by
  rw [List.filter_eq_self]
  intro c hc
  simpa using (h c hc).not_mark.2.1

theorem decodeNat_natDigits (n : Nat) : decodeNat (natDigits n) = n := by
  have hd := natDigits_digits n
  have hv := digitsValue_natDigits n
  generalize natDigits n = ds at hd hv
  have hne : ∀ c ∈ ds, (c != 'e') = true := fun c hc => by simpa using (hd c hc).not_mark.1
  have htw : ds.takeWhile (fun c => c != 'e') = ds := List.takeWhile_eq_self_iff.2 hne
  have hdw : ds.dropWhile (fun c => c != 'e') = [] := List.dropWhile_eq_nil_iff.2 hne
  unfold decodeNat
  simp only [htw, hdw, if_true, filter_point_of_digits ds hd, hv]

theorem decodeNat_exponentForm (n : Nat) : decodeNat (exponentForm n) = n := by
  have hd := natDigits_digits n
  have hv := digitsValue_natDigits n
  have hnil := natDigits_ne_nil n
  have hstrip := digitsValue_stripTrailingZeros (natDigits n)
  have hsd : ∀ c ∈ stripTrailingZeros (natDigits n), IsDecDigit c :=
    fun c hc => hd c (mem_stripTrailingZeros hc)
  have hex := digitsValue_natDigits ((natDigits n).length - 1)
  have hlen : 1 ≤ (natDigits n).length := by
    cases hds : natDigits n with
    | nil => exact absurd hds hnil
    | cons c l => simp
  unfold decodeNat exponentForm
  dsimp only
  generalize natDigits ((natDigits n).length - 1) = ex at hex
  generalize stripTrailingZeros (natDigits n) = sd at hstrip hsd
  generalize (natDigits n).length = len at hstrip hex hlen
  have hpre : ∀ c ∈ sd.take 1 ++ (if sd.tail = [] then [] else '.' :: sd.tail),
      (c != 'e') = true := by
    intro c hc
    rcases List.mem_append.1 hc with h1 | h1
    · simpa using (hsd c (List.mem_of_mem_take h1)).not_mark.1
    · split_ifs at h1 with ht
      · simp at h1
      · rcases List.mem_cons.1 h1 with rfl | h2
        · decide
        · simpa using (hsd c (List.mem_of_mem_tail h2)).not_mark.1
  have hfilter : (sd.take 1 ++ (if sd.tail = [] then [] else '.' :: sd.tail)).filter
      (fun c => c != '.') = sd := by
    cases sd with
    | nil => simp
    | cons d t =>
      have hdd : (d != '.') = true := by simpa using (hsd d (by simp)).not_mark.2.1
      have ht : t.filter (fun c => c != '.') = t :=
        filter_point_of_digits t (fun c hc => hsd c (List.mem_cons_of_mem _ hc))
      by_cases htn : t = []
      · subst htn; simp [hdd]
      · simp [htn, hdd, ht]
  have htw : (sd.take 1 ++ (if sd.tail = [] then [] else '.' :: sd.tail) ++
      'e' :: '+' :: ex).takeWhile (fun c => c != 'e') =
      sd.take 1 ++ (if sd.tail = [] then [] else '.' :: sd.tail) := by
    rw [List.takeWhile_append_of_pos hpre]
    simp [List.takeWhile_cons]
  have hdw : (sd.take 1 ++ (if sd.tail = [] then [] else '.' :: sd.tail) ++
      'e' :: '+' :: ex).dropWhile (fun c => c != 'e') = 'e' :: '+' :: ex := by
    rw [List.dropWhile_append_of_pos hpre]
    simp [List.dropWhile_cons]
  rw [htw, hdw, hfilter, if_neg (List.cons_ne_nil _ _)]
  simp only [List.drop_succ_cons, List.drop_zero, hex]
  rw [← hv, hstrip]
  congr 2
  omega

theorem decodeNat_natToString (n : Nat) : decodeNat (natToString n) = n := by
  unfold natToString
  split_ifs
  · exact decodeNat_natDigits n
  · exact decodeNat_exponentForm n

theorem natToString_no_minus (n : Nat) : ∀ c ∈ natToString n, c ≠ '-' := by
  intro c hc
  unfold natToString at hc
  split_ifs at hc
  · exact (natDigits_digits n c hc).not_mark.2.2
  · unfold exponentForm at hc
    simp only [List.mem_append, List.mem_cons] at hc
    rcases hc with (h1 | h1) | h1
    · exact (natDigits_digits n c
        (mem_stripTrailingZeros (List.mem_of_mem_take h1))).not_mark.2.2
    · split_ifs at h1
      · simp at h1
      · rcases List.mem_cons.1 h1 with rfl | h2
        · decide
        · exact (natDigits_digits n c
            (mem_stripTrailingZeros (List.mem_of_mem_tail h2))).not_mark.2.2
    · rcases h1 with rfl | rfl | h2
      · decide
      · decide
      · exact (natDigits_digits _ c h2).not_mark.2.2

theorem decodeNumber_numberToString (n : Int) : decodeNumber (numberToString n) = n := by
  cases n with
  | ofNat m =>
    have hhead : (natToString m).head? ≠ some '-' := by
      intro h
      exact natToString_no_minus m '-' (List.mem_of_mem_head? h) rfl
    simp only [decodeNumber, numberToString, if_neg hhead, decodeNat_natToString]
    rfl
  | negSucc m =>
    simp only [decodeNumber, numberToString, List.head?_cons, if_true, List.tail_cons,
      decodeNat_natToString]
    rw [Int.negSucc_eq]
    push_cast
    ring

theorem numberToString_injective : Function.Injective numberToString := by
  intro a b h
  have := congrArg decodeNumber h
  rwa [decodeNumber_numberToString, decodeNumber_numberToString] at this

theorem arrayIndex?_numberToString (n : Int) (h : 0 ≤ n ∧ n < 2 ^ 32 - 1) :
    arrayIndex? (numberToString n) = some n.toNat := by
  have hsmall : n.natAbs < 1000000000000000000000 := by omega
  unfold arrayIndex?
  rw [parseInt_numberToString n hsmall]
  cases n with
  | ofNat m =>
    have h2 : m < 4294967295 := by
      have := h.2
      simp at this
      omega
    simp [h2]
  | negSucc m => exact absurd h.1 (by simp)

end JS

/-! ## Properties of objects -/

namespace JS

theorem lookup_eq_some_iff_mem {l : List (String × String)} (nd : (l.map Prod.fst).Nodup)
    (k v : String) : l.lookup k = some v ↔ (k, v) ∈ l := by
  induction l with
  | nil => simp
  | cons p l ih =>
    obtain ⟨k1, v1⟩ := p
    simp only [List.map_cons, List.nodup_cons] at nd
    rw [List.lookup_cons]
    by_cases hk : k = k1
    · subst hk
      have hnot : ∀ w, (k, w) ∉ l := fun w hw => nd.1 (List.mem_map_of_mem Prod.fst hw)
      simp [hnot, eq_comm]
    · have hb : (k == k1) = false := by simpa using hk
      simp [hb, hk, ih nd.2]

theorem lookup_perm {l1 l2 : List (String × String)} (hp : l1.Perm l2)
    (nd : (l1.map Prod.fst).Nodup) (k : String) : l1.lookup k = l2.lookup k := by
  have nd2 : (l2.map Prod.fst).Nodup := (hp.map Prod.fst).nodup_iff.1 nd
  apply Option.ext
  intro v
  show l1.lookup k = some v ↔ l2.lookup k = some v
  rw [lookup_eq_some_iff_mem nd, lookup_eq_some_iff_mem nd2, hp.mem_iff]

theorem lookup_isSome_iff_key (l : List (String × String)) (k : String) :
    (l.lookup k).isSome = true ↔ k ∈ l.map Prod.fst := by
  induction l with
  | nil => simp
  | cons p l ih =>
    obtain ⟨k1, v1⟩ := p
    rw [List.lookup_cons]
    by_cases hk : k = k1
    · subst hk; simp
    · have hb : (k == k1) = false := by simpa using hk
      simp only [hb, List.map_cons, List.mem_cons, hk, false_or]
      exact ih

namespace Object

theorem entries_perm (o : Object) : o.entries.Perm o.props := by
  unfold entries
  exact ((List.perm_insertionSort indexLE _).append_right _).trans
    (List.filter_append_perm _ _)

theorem keys_spread (o : Object) : o.spread.keys.Perm o.keys :=
  (entries_perm o).map Prod.fst

theorem get_spread (o : Object) (nd : o.keys.Nodup) (k : String) : o.spread.get k = o.get k :=
  (lookup_perm (entries_perm o).symm nd k).symm

theorem keys_define (o : Object) (k v : String) :
    (o.define k v).keys = if k ∈ o.keys then o.keys else o.keys ++ [k] := by
  unfold define keys
  by_cases h : k ∈ o.props.map Prod.fst
  · have hany : o.props.any (fun p => p.1 == k) = true := by
      simpa [List.any_eq_true] using h
    rw [if_pos hany, if_pos h]
    simp only [List.map_map]
    apply List.map_congr_left
    intro p _
    by_cases hp : p.1 = k <;> simp [hp]
  · have hany : ¬ (o.props.any (fun p => p.1 == k) = true) := by
      simpa [List.any_eq_true] using h
    rw [if_neg hany, if_neg h]
    simp

theorem lookup_replace_self (l : List (String × String)) (k v : String)
    (h : k ∈ l.map Prod.fst) :
    (l.map (fun p => if p.1 = k then (k, v) else p)).lookup k = some v := by
  induction l with
  | nil => simp at h
  | cons p l ih =>
    obtain ⟨pk, pv⟩ := p
    by_cases hp : pk = k
    · simp [hp, List.lookup_cons]
    · have hb : (k == pk) = false := by simpa using (Ne.symm hp)
      have hl : k ∈ l.map Prod.fst := by
        rw [List.map_cons, List.mem_cons] at h
        rcases h with h1 | h1
        · exact absurd h1.symm hp
        · exact h1
      simp only [List.map_cons, hp, if_false, List.lookup_cons, hb]
      exact ih hl

theorem lookup_replace_other (l : List (String × String)) (k v k1 : String) (h : k1 ≠ k) :
    (l.map (fun p => if p.1 = k then (k, v) else p)).lookup k1 = l.lookup k1 := by
  induction l with
  | nil => rfl
  | cons p l ih =>
    obtain ⟨pk, pv⟩ := p
    by_cases hp : pk = k
    · have hb : (k1 == k) = false := by simpa using h
      subst hp
      simp only [List.map_cons, if_true, List.lookup_cons, hb]
      exact ih
    · simp only [List.map_cons, hp, if_false, List.lookup_cons]
      rw [ih]

theorem get_define (o : Object) (k v k1 : String) :
    (o.define k v).get k1 = if k1 = k then some v else o.get k1 := by
  unfold define get
  by_cases h : k ∈ o.props.map Prod.fst
  · have hany : o.props.any (fun p => p.1 == k) = true := by
      simpa [List.any_eq_true] using h
    rw [if_pos hany]
    by_cases h1 : k1 = k
    · subst h1; rw [if_pos rfl]; exact lookup_replace_self _ _ _ h
    · rw [if_neg h1]; exact lookup_replace_other _ _ _ _ h1
  · have hany : ¬ (o.props.any (fun p => p.1 == k) = true) := by
      simpa [List.any_eq_true] using h
    rw [if_neg hany, List.lookup_append]
    by_cases h1 : k1 = k
    · subst h1
      have hnone : o.props.lookup k1 = none := by
        rw [← Option.not_isSome_iff_eq_none, lookup_isSome_iff_key]; exact h
      simp [hnone]
    · have hb : (k1 == k) = false := by simpa using h1
      simp [h1, List.lookup_cons, hb]

theorem nodup_keys_define (o : Object) (k v : String) (nd : o.keys.Nodup) :
    (o.define k v).keys.Nodup := by
  rw [keys_define]
  split_ifs with h
  · exact nd
  · exact List.Nodup.append nd (List.nodup_singleton k) (by simpa using h)

end Object

end JS

/-! ## Properties of the answer mapping -/

namespace Questionnaire

open JS

theorem filter_length_eq_one {α β : Type} [DecidableEq β] (f : α → β) (l : List α)
    (nd : (l.map f).Nodup) (y : β) (hy : y ∈ l.map f) :
    (l.filter (fun e => f e = y)).length = 1 := by
  induction l with
  | nil => simp at hy
  | cons x l ih =>
    rw [List.map_cons, List.nodup_cons] at nd
    rw [List.map_cons, List.mem_cons] at hy
    by_cases hx : f x = y
    · have hnone : l.filter (fun e => f e = y) = [] := by
        rw [List.filter_eq_nil_iff]
        intro e he
        have : f e ≠ y := fun h => nd.1 (by rw [hx, ← h]; exact List.mem_map_of_mem f he)
        simpa using this
      simp [hx, hnone]
    · have hy1 : y ∈ l.map f := by
        rcases hy with h | h
        · exact absurd h.symm hx
        · exact h
      simp [hx, ih nd.2 hy1]

theorem selectAll_snoc (calls : List (Int × String)) (c : Int × String) (s : State) :
    selectAll (calls ++ [c]) s = handleAnswerSelect (some c.1) c.2 (selectAll calls s) := by
  simp [selectAll, List.foldl_append]

theorem lastAnswer_snoc (calls : List (Int × String)) (c : Int × String) (id : Int) :
    lastAnswer (calls ++ [c]) id = if c.1 = id then some c.2 else lastAnswer calls id := by
  unfold lastAnswer
  rw [List.reverse_append, List.reverse_singleton, List.singleton_append, List.find?_cons]
  by_cases h : c.1 = id <;> simp [h]

theorem lastAnswer_isSome_iff (calls : List (Int × String)) (id : Int) :
    (lastAnswer calls id).isSome = true ↔ id ∈ calls.map Prod.fst := by
  unfold lastAnswer
  rw [Option.isSome_map', List.find?_isSome]
  constructor
  · rintro ⟨c, hc, h⟩
    have hc1 : c ∈ calls := by simpa using hc
    have h1 : c.1 = id := by simpa using h
    exact h1 ▸ List.mem_map_of_mem Prod.fst hc1
  · intro h
    obtain ⟨c, hc, h1⟩ := List.mem_map.1 h
    exact ⟨c, by simpa using hc, by simpa using h1⟩

theorem nodup_keys_handleAnswerSelect (questionId : Option Int) (answer : String) (s : State)
    (nd : s.userAnswers.keys.Nodup) :
    (handleAnswerSelect questionId answer s).userAnswers.keys.Nodup :=
  Object.nodup_keys_define _ _ _ ((Object.keys_spread s.userAnswers).nodup_iff.2 nd)

theorem get_handleAnswerSelect (questionId : Option Int) (answer : String) (s : State)
    (nd : s.userAnswers.keys.Nodup) (k : String) :
    (handleAnswerSelect questionId answer s).userAnswers.get k =
      if k = toPropertyKey questionId then some answer else s.userAnswers.get k := by
  show (s.userAnswers.spread.define (toPropertyKey questionId) answer).get k = _
  rw [Object.get_define, Object.get_spread _ nd]

theorem mem_keys_handleAnswerSelect (questionId : Option Int) (answer : String) (s : State)
    (k : String) (h : k ∈ (handleAnswerSelect questionId answer s).userAnswers.keys) :
    k ∈ s.userAnswers.keys ∨ k = toPropertyKey questionId := by
  have h1 : k ∈ (s.userAnswers.spread.define (toPropertyKey questionId) answer).keys := h
  rw [Object.keys_define] at h1
  split_ifs at h1 with hk
  · exact Or.inl ((Object.keys_spread s.userAnswers).mem_iff.1 h1)
  · rcases List.mem_append.1 h1 with h2 | h2
    · exact Or.inl ((Object.keys_spread s.userAnswers).mem_iff.1 h2)
    · exact Or.inr (by simpa using h2)

theorem selectAll_frame (calls : List (Int × String)) (s : State) :
    (selectAll calls s).currentQuestionIndex = s.currentQuestionIndex ∧
      (selectAll calls s).showAll = s.showAll := by
  induction calls using List.reverseRecOn with
  | nil => exact ⟨rfl, rfl⟩
  | append_singleton calls c ih =>
    rw [selectAll_snoc]
    exact ih

theorem selectAll_invariant (calls : List (Int × String)) (s : State)
    (h0 : s.userAnswers = Object.empty) :
    (selectAll calls s).userAnswers.keys.Nodup ∧
    (∀ id : Int, (selectAll calls s).userAnswers.get (numberToString id) = lastAnswer calls id) ∧
    (∀ k ∈ (selectAll calls s).userAnswers.keys,
      ∃ id ∈ calls.map Prod.fst, k = numberToString id) := by
  induction calls using List.reverseRecOn with
  | nil =>
    refine ⟨?_, ?_, ?_⟩
    · simp [selectAll, h0, Object.empty, Object.keys]
    · intro id; simp [selectAll, h0, Object.empty, Object.get, lastAnswer]
    · intro k hk; simp [selectAll, h0, Object.empty, Object.keys] at hk
  | append_singleton calls c ih =>
    obtain ⟨nd, hget, hkeys⟩ := ih
    rw [selectAll_snoc]
    refine ⟨nodup_keys_handleAnswerSelect _ _ _ nd, ?_, ?_⟩
    · intro id
      rw [get_handleAnswerSelect _ _ _ nd, lastAnswer_snoc, hget]
      by_cases h : c.1 = id
      · simp [h, toPropertyKey]
      · have h1 : numberToString id ≠ numberToString c.1 :=
          fun e => h (numberToString_injective e).symm
        simp [h, h1, toPropertyKey]
    · intro k hk
      rcases mem_keys_handleAnswerSelect _ _ _ k hk with h1 | h1
      · obtain ⟨id, hid, rfl⟩ := hkeys k h1
        exact ⟨id, by simp only [List.map_append, List.mem_append]; exact Or.inl hid, rfl⟩
      · exact ⟨c.1, by simp, h1⟩

theorem isAnswered_selectAll (calls : List (Int × String)) (s : State)
    (h0 : s.userAnswers = Object.empty) (id : Int) :
    isAnswered (selectAll calls s) (some id) = true ↔ id ∈ calls.map Prod.fst := by
  unfold isAnswered
  rw [show toPropertyKey (some id) = numberToString id from rfl,
    (selectAll_invariant calls s h0).2.1 id, lastAnswer_isSome_iff]

theorem allQuestionsAnswered_selectAll (questions : List Question) (calls : List (Int × String))
    (s : State) (h0 : s.userAnswers = Object.empty) :
    allQuestionsAnswered questions (selectAll calls s) = true ↔
      ∀ q ∈ questions, q.id ∈ calls.map Prod.fst := by
  unfold allQuestionsAnswered
  rw [List.all_eq_true]
  exact forall₂_congr (fun q _ => isAnswered_selectAll calls s h0 q.id)

theorem mem_entries_selectAll (calls : List (Int × String)) (s : State)
    (h0 : s.userAnswers = Object.empty) (k a : String) :
    (k, a) ∈ (selectAll calls s).userAnswers.entries ↔
      ∃ id : Int, k = numberToString id ∧ lastAnswer calls id = some a := by
  obtain ⟨nd, hget, hkeys⟩ := selectAll_invariant calls s h0
  rw [(Object.entries_perm _).mem_iff, ← lookup_eq_some_iff_mem nd]
  constructor
  · intro h
    have hk : k ∈ (selectAll calls s).userAnswers.keys := by
      rw [Object.keys, ← lookup_isSome_iff_key, h]; rfl
    obtain ⟨id, _, rfl⟩ := hkeys k hk
    exact ⟨id, rfl, by rw [← hget]; exact h⟩
  · rintro ⟨id, rfl, h⟩
    rw [← h, ← hget]; rfl

end Questionnaire

/-! ## The claims about the answer collector -/

namespace Questionnaire

open JS

/-- C1: after any sequence of `handleAnswerSelect` calls (with string options)
on the empty mapping, `isAnswered(id)` is true iff the mapping has an entry
for `id`, which is the case iff `id` was selected; `allQuestionsAnswered` is
true iff every question id of the list has an entry, i.e. was selected.  For a
non-empty list it is false at the start, and once true it stays true under
further selections. -/
theorem C1_answered_iff_entry (questions : List Question) (calls : List (Int × String))
    (i : Nat) (b : Bool) :
    (∀ id : Int,
      (isAnswered (selectAll calls ⟨i, Object.empty, b⟩) (some id) = true ↔
        ∃ a, (toPropertyKey (some id), a) ∈
          (selectAll calls ⟨i, Object.empty, b⟩).userAnswers.entries) ∧
      (isAnswered (selectAll calls ⟨i, Object.empty, b⟩) (some id) = true ↔
        id ∈ calls.map Prod.fst)) ∧
    (allQuestionsAnswered questions (selectAll calls ⟨i, Object.empty, b⟩) = true ↔
      ∀ q ∈ questions, ∃ a, (toPropertyKey (some q.id), a) ∈
        (selectAll calls ⟨i, Object.empty, b⟩).userAnswers.entries) ∧
    (allQuestionsAnswered questions (selectAll calls ⟨i, Object.empty, b⟩) = true ↔
      ∀ q ∈ questions, q.id ∈ calls.map Prod.fst) ∧
    (questions ≠ [] → allQuestionsAnswered questions ⟨i, Object.empty, b⟩ = false) ∧
    (∀ more : List (Int × String),
      allQuestionsAnswered questions (selectAll calls ⟨i, Object.empty, b⟩) = true →
      allQuestionsAnswered questions (selectAll (calls ++ more) ⟨i, Object.empty, b⟩) = true) := by
  have hentry : ∀ id : Int,
      (∃ a, (toPropertyKey (some id), a) ∈
        (selectAll calls ⟨i, Object.empty, b⟩).userAnswers.entries) ↔
      id ∈ calls.map Prod.fst := by
    intro id
    rw [← lastAnswer_isSome_iff, Option.isSome_iff_exists]
    refine exists_congr (fun a => ?_)
    rw [mem_entries_selectAll calls _ rfl]
    constructor
    · rintro ⟨id1, h1, h2⟩
      have : id = id1 := numberToString_injective h1
      rw [this]; exact h2
    · intro h; exact ⟨id, rfl, h⟩
  refine ⟨fun id => ⟨?_, isAnswered_selectAll calls _ rfl id⟩, ?_,
    allQuestionsAnswered_selectAll questions calls _ rfl, ?_, ?_⟩
  · rw [hentry id]; exact isAnswered_selectAll calls _ rfl id
  · rw [allQuestionsAnswered_selectAll questions calls _ rfl]
    exact forall₂_congr (fun q _ => (hentry q.id).symm)
  · intro hne
    have h := allQuestionsAnswered_selectAll questions [] ⟨i, Object.empty, b⟩ rfl
    cases hq : allQuestionsAnswered questions ⟨i, Object.empty, b⟩ with
    | false => rfl
    | true =>
      obtain ⟨q, rest, rfl⟩ := List.exists_cons_of_ne_nil hne
      have := (h.1 hq) q (by simp)
      simp at this
  · intro more h
    rw [allQuestionsAnswered_selectAll questions _ _ rfl] at h ⊢
    intro q hq
    rw [List.map_append, List.mem_append]
    exact Or.inl (h q hq)

/-- A run of C1 on two questions: nothing answered, then the first, then both. -/
theorem C1_answered_iff_entry_witness :
    ([⟨1, "Q1", ["a", "b"]⟩, ⟨2, "Q2", ["c"]⟩] : List Question) ≠ [] ∧
    allQuestionsAnswered [⟨1, "Q1", ["a", "b"]⟩, ⟨2, "Q2", ["c"]⟩]
      ⟨0, Object.empty, false⟩ = false ∧
    allQuestionsAnswered [⟨1, "Q1", ["a", "b"]⟩, ⟨2, "Q2", ["c"]⟩]
      (selectAll [(1, "a")] ⟨0, Object.empty, false⟩) = false ∧
    allQuestionsAnswered [⟨1, "Q1", ["a", "b"]⟩, ⟨2, "Q2", ["c"]⟩]
      (selectAll [(1, "a"), (2, "c")] ⟨0, Object.empty, false⟩) = true ∧
    allQuestionsAnswered [⟨1, "Q1", ["a", "b"]⟩, ⟨2, "Q2", ["c"]⟩]
      (selectAll ([(1, "a"), (2, "c")] ++ [(1, "b")]) ⟨0, Object.empty, false⟩) = true :=
  ⟨by decide,
   (C1_answered_iff_entry [⟨1, "Q1", ["a", "b"]⟩, ⟨2, "Q2", ["c"]⟩] [] 0 false).2.2.2.1
     (by decide),
   by decide, by decide,
   (C1_answered_iff_entry [⟨1, "Q1", ["a", "b"]⟩, ⟨2, "Q2", ["c"]⟩] [(1, "a"), (2, "c")]
     0 false).2.2.2.2 [(1, "b")] (by decide)⟩

/-- C2, as the code has it: after any sequence of `handleAnswerSelect` calls
whose ids are integers of magnitude below `10^21`, `handleSubmit` emits no two
entries with the same `question_id`; every entry carries an id that was passed
to `handleAnswerSelect` together with the option of the last call for that id;
every selected id has exactly one entry; and when every question of the list
is answered, every question id of the list has exactly one entry. -/
theorem C2_submit_one_entry_per_id (questions : List Question) (calls : List (Int × String))
    (i : Nat) (b : Bool)
    (hrange : ∀ c ∈ calls,
      -1000000000000000000000 < c.1 ∧ c.1 < 1000000000000000000000) :
    ((handleSubmit (selectAll calls ⟨i, Object.empty, b⟩)).map
      (fun e => e.question_id)).Nodup ∧
    (∀ e ∈ handleSubmit (selectAll calls ⟨i, Object.empty, b⟩),
      ∃ id : Int, id ∈ calls.map Prod.fst ∧ e.question_id = some id ∧
        lastAnswer calls id = some e.answer) ∧
    (∀ id ∈ calls.map Prod.fst,
      ((handleSubmit (selectAll calls ⟨i, Object.empty, b⟩)).filter
        (fun e => e.question_id = some id)).length = 1) ∧
    (∀ (id : Int) (a : String), lastAnswer calls id = some a →
      (⟨some id, a⟩ : FormattedAnswer) ∈ handleSubmit (selectAll calls ⟨i, Object.empty, b⟩)) ∧
    (allQuestionsAnswered questions (selectAll calls ⟨i, Object.empty, b⟩) = true →
      ∀ q ∈ questions,
        ((handleSubmit (selectAll calls ⟨i, Object.empty, b⟩)).filter
          (fun e => e.question_id = some q.id)).length = 1) := by
  obtain ⟨nd, hget, hkeys⟩ := selectAll_invariant calls ⟨i, Object.empty, b⟩ rfl
  have hmem := mem_entries_selectAll calls ⟨i, Object.empty, b⟩ rfl
  have hparse : ∀ (id : Int) (a : String), lastAnswer calls id = some a →
      parseInt (numberToString id) = some id := by
    intro id a h
    have hid : id ∈ calls.map Prod.fst := (lastAnswer_isSome_iff calls id).1 (by rw [h]; rfl)
    obtain ⟨c, hc, rfl⟩ := List.mem_map.1 hid
    have hr := hrange c hc
    exact parseInt_numberToString c.1 (by omega)
  have hnd : ((handleSubmit (selectAll calls ⟨i, Object.empty, b⟩)).map
      (fun e => e.question_id)).Nodup := by
    unfold handleSubmit
    rw [List.map_map]
    have hE : ((selectAll calls ⟨i, Object.empty, b⟩).userAnswers.entries.map Prod.fst).Nodup :=
      ((Object.entries_perm _).map Prod.fst).nodup_iff.2 nd
    rw [List.nodup_map_iff_inj_on (List.Nodup.of_map Prod.fst hE)]
    rintro ⟨k1, a1⟩ h1 ⟨k2, a2⟩ h2 heq
    obtain ⟨id1, rfl, e1⟩ := (hmem k1 a1).1 h1
    obtain ⟨id2, rfl, e2⟩ := (hmem k2 a2).1 h2
    simp only [Function.comp, hparse id1 a1 e1, hparse id2 a2 e2, Option.some.injEq] at heq
    subst heq
    rw [e1] at e2
    rw [Option.some.inj e2]
  have hin : ∀ (id : Int) (a : String), lastAnswer calls id = some a →
      (⟨some id, a⟩ : FormattedAnswer) ∈
        handleSubmit (selectAll calls ⟨i, Object.empty, b⟩) := by
    intro id a h
    unfold handleSubmit
    rw [List.mem_map]
    exact ⟨(numberToString id, a), (hmem _ _).2 ⟨id, rfl, h⟩,
      by simp [hparse id a h]⟩
  have hcount : ∀ id ∈ calls.map Prod.fst,
      ((handleSubmit (selectAll calls ⟨i, Object.empty, b⟩)).filter
        (fun e => e.question_id = some id)).length = 1 := by
    intro id hid
    obtain ⟨a, ha⟩ := Option.isSome_iff_exists.1 ((lastAnswer_isSome_iff calls id).2 hid)
    exact filter_length_eq_one (fun e => e.question_id) _ hnd (some id)
      (List.mem_map.2 ⟨⟨some id, a⟩, hin id a ha, rfl⟩)
  refine ⟨hnd, ?_, hcount, hin, ?_⟩
  · intro e he
    unfold handleSubmit at he
    obtain ⟨⟨k, a⟩, hp, rfl⟩ := List.mem_map.1 he
    obtain ⟨id, rfl, h⟩ := (hmem k a).1 hp
    exact ⟨id, (lastAnswer_isSome_iff calls id).1 (by rw [h]; rfl),
      hparse id a h, h⟩
  · intro hall q hq
    exact hcount q.id ((allQuestionsAnswered_selectAll questions calls _ rfl).1 hall q hq)

/-- A run of C2: question 2 is selected twice and question 1 once. -/
theorem C2_submit_one_entry_per_id_witness :
    (∀ c ∈ ([(2, "c"), (1, "a"), (2, "d")] : List (Int × String)),
      -1000000000000000000000 < c.1 ∧ c.1 < 1000000000000000000000) ∧
    allQuestionsAnswered [⟨1, "Q1", ["a", "b"]⟩, ⟨2, "Q2", ["c", "d"]⟩]
      (selectAll [(2, "c"), (1, "a"), (2, "d")] ⟨0, Object.empty, false⟩) = true ∧
    handleSubmit (selectAll [(2, "c"), (1, "a"), (2, "d")] ⟨0, Object.empty, false⟩) =
      [⟨some 1, "a"⟩, ⟨some 2, "d"⟩] ∧
    ∀ q ∈ ([⟨1, "Q1", ["a", "b"]⟩, ⟨2, "Q2", ["c", "d"]⟩] : List Question),
      ((handleSubmit (selectAll [(2, "c"), (1, "a"), (2, "d")]
        ⟨0, Object.empty, false⟩)).filter (fun e => e.question_id = some q.id)).length = 1 :=
  ⟨by decide, by decide, by decide,
   (C2_submit_one_entry_per_id [⟨1, "Q1", ["a", "b"]⟩, ⟨2, "Q2", ["c", "d"]⟩]
     [(2, "c"), (1, "a"), (2, "d")] 0 false (by decide)).2.2.2.2 (by decide)⟩

/-- C2 as stated fails: the id `10^21` is an integer whose key is `1e+21`, from
which `parseInt` reads `1`.  Selected alone, its entry carries `question_id` 1
and not the id that was passed; selected together with the id `1`,
`handleSubmit` emits two entries with the same `question_id`. -/
theorem C2_counterexample :
    handleSubmit (selectAll [(1000000000000000000000, "a")] initialState) =
      [⟨some 1, "a"⟩] ∧
    (∀ e ∈ handleSubmit (selectAll [(1000000000000000000000, "a")] initialState),
      e.question_id ≠ some 1000000000000000000000) ∧
    handleSubmit (selectAll [(1000000000000000000000, "a"), (1, "b")] initialState) =
      [⟨some 1, "b"⟩, ⟨some 1, "a"⟩] ∧
    ¬ ((handleSubmit (selectAll [(1000000000000000000000, "a"), (1, "b")] initialState)).map
      (fun e => e.question_id)).Nodup := by
  refine ⟨by decide, by decide, by decide, by decide⟩

end Questionnaire

namespace Questionnaire

open JS

/-- C3: when some question id of the list has no entry in the answer mapping,
every control that would run `handleSubmit` is rendered disabled, a click on it
changes nothing and calls `onSubmit` with nothing, and no other control of the
view calls `onSubmit` either. -/
theorem C3_partial_submit_rejected (questions : List Question) (s : State)
    (h : ∃ q ∈ questions, isAnswered s (some q.id) = false) :
    allQuestionsAnswered questions s = false ∧
    (∀ btn ∈ (render questions s).buttons, btn.onClick = Handler.handleSubmit →
      btn.disabled = true ∧ click questions btn s = (s, none)) ∧
    (∀ btn ∈ (render questions s).buttons, (click questions btn s).2 = none) ∧
    (∀ r ∈ (render questions s).radioInputs, (runHandler questions r.onChange s).2 = none) := by
  have hall : allQuestionsAnswered questions s = false := by
    obtain ⟨q, hq, hqa⟩ := h
    cases hc : allQuestionsAnswered questions s with
    | false => rfl
    | true =>
      unfold allQuestionsAnswered at hc
      rw [List.all_eq_true] at hc
      rw [hc q hq] at hqa
      exact absurd hqa (by decide)
  have hsub : ∀ btn ∈ (render questions s).buttons, btn.onClick = Handler.handleSubmit →
      btn.disabled = true := by
    intro btn hbtn hclick
    unfold render at hbtn
    split_ifs at hbtn with hshow
    · simp only [View.buttons, List.mem_cons, List.mem_singleton, List.not_mem_nil,
        or_false] at hbtn
      rcases hbtn with rfl | rfl
      · simp at hclick
      · simp [hall]
    · simp only [View.buttons, List.mem_cons, List.mem_singleton, List.not_mem_nil,
        or_false] at hbtn
      rcases hbtn with rfl | rfl | rfl
      · simp at hclick
      · simp at hclick
      · unfold forwardButton at hclick ⊢
        by_cases hlt : (s.currentQuestionIndex : Int) < (questions.length : Int) - 1
        · rw [if_pos hlt] at hclick; simp at hclick
        · rw [if_neg hlt]; simp [hall]
  refine ⟨hall, ?_, ?_, ?_⟩
  · intro btn hbtn hclick
    have hd := hsub btn hbtn hclick
    exact ⟨hd, by simp [click, hd]⟩
  · intro btn hbtn
    unfold click
    split_ifs with hd
    · rfl
    · cases hh : btn.onClick with
      | handleSubmit => exact absurd (hsub btn hbtn hh) hd
      | handlePrevious => rfl
      | handleNext => rfl
      | setShowAll v => rfl
      | handleAnswerSelect qid a => rfl
  · intro r hr
    have hradio : ∀ (q : Question), ∀ r ∈ radios s q,
        (runHandler questions r.onChange s).2 = none := by
      intro q r hr
      unfold radios at hr
      obtain ⟨o, _, rfl⟩ := List.mem_map.1 hr
      rfl
    unfold render at hr
    split_ifs at hr with hshow
    · simp only [View.radioInputs, List.mem_flatten, List.mem_map] at hr
      obtain ⟨l, ⟨q, _, rfl⟩, hrl⟩ := hr
      exact hradio q r hrl
    · simp only [View.radioInputs] at hr
      cases hq : currentQuestion questions s with
      | none => rw [hq] at hr; simp at hr
      | some q => rw [hq] at hr; exact hradio q r hr

/-- A run of C3: two questions, only the first answered, at the last index. -/
theorem C3_partial_submit_rejected_witness :
    (∃ q ∈ ([⟨1, "Q1", ["a"]⟩, ⟨2, "Q2", ["c"]⟩] : List Question),
      isAnswered (selectAll [(1, "a")] ⟨1, Object.empty, false⟩) (some q.id) = false) ∧
    ∀ btn ∈ (render [⟨1, "Q1", ["a"]⟩, ⟨2, "Q2", ["c"]⟩]
        (selectAll [(1, "a")] ⟨1, Object.empty, false⟩)).buttons,
      (click [⟨1, "Q1", ["a"]⟩, ⟨2, "Q2", ["c"]⟩] btn
        (selectAll [(1, "a")] ⟨1, Object.empty, false⟩)).2 = none :=
  ⟨⟨⟨2, "Q2", ["c"]⟩, by decide, by decide⟩,
   (C3_partial_submit_rejected [⟨1, "Q1", ["a"]⟩, ⟨2, "Q2", ["c"]⟩]
     (selectAll [(1, "a")] ⟨1, Object.empty, false⟩)
     ⟨⟨2, "Q2", ["c"]⟩, by decide, by decide⟩).2.2.1⟩

end Questionnaire

namespace Questionnaire

open JS

theorem handleNext_lt (questions : List Question) (s : State)
    (h : s.currentQuestionIndex < questions.length) :
    (handleNext questions s).currentQuestionIndex < questions.length := by
  unfold handleNext
  split_ifs with hlt
  · show s.currentQuestionIndex + 1 < questions.length
    omega
  · exact h

theorem handlePrevious_lt (questions : List Question) (s : State)
    (h : s.currentQuestionIndex < questions.length) :
    (handlePrevious s).currentQuestionIndex < questions.length := by
  unfold handlePrevious
  split_ifs with hlt
  · show s.currentQuestionIndex - 1 < questions.length
    omega
  · exact h

theorem navigate_lt (questions : List Question) (ops : List Nav) :
    ∀ s : State, s.currentQuestionIndex < questions.length →
      (navigate questions ops s).currentQuestionIndex < questions.length := by
  induction ops with
  | nil => intro s h; exact h
  | cons op ops ih =>
    intro s h
    cases op with
    | next => exact ih _ (handleNext_lt questions s h)
    | previous => exact ih _ (handlePrevious_lt questions s h)

/-- C4: for a list of `total ≥ 1` questions and an index in `[0, total-1]`,
`handleNext` adds one below the last index and changes nothing at the last
index, `handlePrevious` subtracts one above `0` and changes nothing at `0`, and
from index `0` every sequence of the two keeps the index in `[0, total-1]`. -/
theorem C4_index_stays_in_range (questions : List Question) (s : State)
    (htotal : 1 ≤ questions.length) (hidx : s.currentQuestionIndex < questions.length) :
    (s.currentQuestionIndex < questions.length - 1 →
      (handleNext questions s).currentQuestionIndex = s.currentQuestionIndex + 1) ∧
    (s.currentQuestionIndex = questions.length - 1 → handleNext questions s = s) ∧
    (0 < s.currentQuestionIndex →
      (handlePrevious s).currentQuestionIndex = s.currentQuestionIndex - 1) ∧
    (s.currentQuestionIndex = 0 → handlePrevious s = s) ∧
    (handleNext questions s).currentQuestionIndex < questions.length ∧
    (handlePrevious s).currentQuestionIndex < questions.length ∧
    (∀ ops : List Nav,
      (navigate questions ops { s with currentQuestionIndex := 0 }).currentQuestionIndex <
        questions.length) := by
  refine ⟨?_, ?_, ?_, ?_, handleNext_lt questions s hidx, handlePrevious_lt questions s hidx, ?_⟩
  · intro h
    have hlt : (s.currentQuestionIndex : Int) < (questions.length : Int) - 1 := by omega
    simp [handleNext, hlt]
  · intro h
    have hlt : ¬ (s.currentQuestionIndex : Int) < (questions.length : Int) - 1 := by omega
    simp [handleNext, hlt]
  · intro h
    simp [handlePrevious, h]
  · intro h
    simp [handlePrevious, h]
  · intro ops
    exact navigate_lt questions ops _ (by show 0 < questions.length; omega)

/-- A run of C4 on three questions. -/
theorem C4_index_stays_in_range_witness :
    1 ≤ ([⟨1, "Q1", []⟩, ⟨2, "Q2", []⟩, ⟨3, "Q3", []⟩] : List Question).length ∧
    (⟨1, Object.empty, false⟩ : State).currentQuestionIndex <
      ([⟨1, "Q1", []⟩, ⟨2, "Q2", []⟩, ⟨3, "Q3", []⟩] : List Question).length ∧
    (handleNext [⟨1, "Q1", []⟩, ⟨2, "Q2", []⟩, ⟨3, "Q3", []⟩]
      ⟨1, Object.empty, false⟩).currentQuestionIndex = 1 + 1 ∧
    (navigate [⟨1, "Q1", []⟩, ⟨2, "Q2", []⟩, ⟨3, "Q3", []⟩]
      [Nav.next, Nav.next, Nav.next, Nav.previous, Nav.next, Nav.next]
      ⟨0, Object.empty, false⟩).currentQuestionIndex < 3 :=
  ⟨by decide, by decide,
   (C4_index_stays_in_range [⟨1, "Q1", []⟩, ⟨2, "Q2", []⟩, ⟨3, "Q3", []⟩]
     ⟨1, Object.empty, false⟩ (by decide) (by decide)).1 (by decide),
   (C4_index_stays_in_range [⟨1, "Q1", []⟩, ⟨2, "Q2", []⟩, ⟨3, "Q3", []⟩]
     ⟨1, Object.empty, false⟩ (by decide) (by decide)).2.2.2.2.2.2 _⟩

theorem radios_after_select (q : Question) (option : String) (s : State) (b : Bool) :
    radios (setShowAll b (handleAnswerSelect (some q.id) option s)) q =
      q.options.map (fun o =>
        { value := o, checked := decide (o = option),
          onChange := Handler.handleAnswerSelect q.id o }) := by
  unfold radios
  apply List.map_congr_left
  intro o _
  have hget : (setShowAll b (handleAnswerSelect (some q.id) option s)).userAnswers.get
      (toPropertyKey (some q.id)) = some option := by
    show (s.userAnswers.spread.define (toPropertyKey (some q.id)) option).get _ = _
    rw [Object.get_define, if_pos rfl]
  rw [hget]
  by_cases ho : o = option
  · subst ho; simp
  · have : ¬ option = o := fun e => ho e.symm
    simp [ho, this]

/-- C5: `setShowAll` changes neither the answer mapping nor the current index.
An answer selected for a question in the bulk view is, after switching to the
sequential view, the one checked option of that question when it is the
current one; and an answer selected in the sequential view is, after switching
to the bulk view, the one checked option on that question's card. -/
theorem C5_toggle_preserves_answers (questions : List Question) (s : State) (q : Question)
    (option : String) (b : Bool) :
    (setShowAll b s).userAnswers = s.userAnswers ∧
    (setShowAll b s).currentQuestionIndex = s.currentQuestionIndex ∧
    (s.showAll = true → currentQuestion questions s = some q →
      render questions (setShowAll false (handleAnswerSelect (some q.id) option s)) =
        View.sequential (progress questions s)
          (q.options.map (fun o =>
            { value := o, checked := decide (o = option),
              onChange := Handler.handleAnswerSelect q.id o }))
          { text := "Précédent", onClick := Handler.handlePrevious,
            disabled := s.currentQuestionIndex == 0 }
          { text := "Voir tout", onClick := Handler.setShowAll true, disabled := false }
          (forwardButton questions (handleAnswerSelect (some q.id) option s))
          false) ∧
    (s.showAll = false → q ∈ questions →
      render questions (setShowAll true (handleAnswerSelect (some q.id) option s)) =
        View.all
          { text := "Vue par question", onClick := Handler.setShowAll false, disabled := false }
          (questions.map (radios (handleAnswerSelect (some q.id) option s)))
          { text := "Analyser mes réponses", onClick := Handler.handleSubmit,
            disabled := !allQuestionsAnswered questions
              (handleAnswerSelect (some q.id) option s) }
          (!allQuestionsAnswered questions (handleAnswerSelect (some q.id) option s)) ∧
      q.options.map (fun o =>
        ({ value := o, checked := decide (o = option),
           onChange := Handler.handleAnswerSelect q.id o } : Radio)) ∈
        questions.map (radios (handleAnswerSelect (some q.id) option s))) := by
  refine ⟨rfl, rfl, ?_, ?_⟩
  · intro _ hcur
    have hcur2 : currentQuestion questions
        (setShowAll false (handleAnswerSelect (some q.id) option s)) = some q := hcur
    have hans : isAnswered (setShowAll false (handleAnswerSelect (some q.id) option s))
        (some q.id) = true := by
      unfold isAnswered
      show ((s.userAnswers.spread.define (toPropertyKey (some q.id)) option).get _).isSome = _
      rw [Object.get_define, if_pos rfl]; rfl
    unfold render
    rw [if_neg (by simp [setShowAll]), hcur2]
    simp only [radios_after_select, Option.map_some', hans]
    rfl
  · intro _ hq
    refine ⟨?_, ?_⟩
    · unfold render
      rw [if_pos (by simp [setShowAll])]
      rfl
    · rw [List.mem_map]
      exact ⟨q, hq, radios_after_select q option s s.showAll⟩

/-- A run of C5: the second option of question 2 is chosen in the bulk view. -/
theorem C5_toggle_preserves_answers_witness :
    (⟨1, Object.empty, true⟩ : State).showAll = true ∧
    currentQuestion [⟨1, "Q1", ["a", "b"]⟩, ⟨2, "Q2", ["c", "d"]⟩] ⟨1, Object.empty, true⟩ =
      some ⟨2, "Q2", ["c", "d"]⟩ ∧
    (render [⟨1, "Q1", ["a", "b"]⟩, ⟨2, "Q2", ["c", "d"]⟩]
      (setShowAll false (handleAnswerSelect (some 2) "d" ⟨1, Object.empty, true⟩))).radioInputs =
      [⟨"c", false, Handler.handleAnswerSelect 2 "c"⟩,
       ⟨"d", true, Handler.handleAnswerSelect 2 "d"⟩] :=
  ⟨rfl, rfl, by
    rw [(C5_toggle_preserves_answers [⟨1, "Q1", ["a", "b"]⟩, ⟨2, "Q2", ["c", "d"]⟩]
      ⟨1, Object.empty, true⟩ ⟨2, "Q2", ["c", "d"]⟩ "d" false).2.2.1 rfl rfl]
    decide⟩

end Questionnaire

namespace Questionnaire

open JS

theorem isAnswered_congr (s t : State) (h : s.userAnswers = t.userAnswers)
    (questionId : Option Int) : isAnswered s questionId = isAnswered t questionId := by
  unfold isAnswered
  rw [h]

theorem allQuestionsAnswered_congr (questions : List Question) (s t : State)
    (h : s.userAnswers = t.userAnswers) :
    allQuestionsAnswered questions s = allQuestionsAnswered questions t := by
  unfold allQuestionsAnswered
  exact congrArg _ (funext (fun q => isAnswered_congr s t h (some q.id)))

/-- C8: in the sequential view with the index in range, the current question
is `questions[currentQuestionIndex]`.  Below the last index the forward button
is `Suivant` (running `handleNext`), enabled iff `questions[currentQuestionIndex]`
is answered; at the last index it is `Terminer` (running `handleSubmit`),
enabled iff `allQuestionsAnswered` holds.  When the answer mapping is the one
left by a sequence of selections, `Suivant` is enabled iff the id of
`questions[currentQuestionIndex]` was selected and `Terminer` iff every question
id was.  With two questions of different ids and only the first answered, the
button at index 1 is disabled; once the second is answered it is enabled and a
click calls `onSubmit`. -/
theorem C8_forward_button_gating (questions : List Question) (s : State)
    (hidx : s.currentQuestionIndex < questions.length) (hseq : s.showAll = false) :
    (render questions s).forward? = some (forwardButton questions s) ∧
    currentQuestion questions s = some (questions.get ⟨s.currentQuestionIndex, hidx⟩) ∧
    (s.currentQuestionIndex ≠ questions.length - 1 →
      forwardButton questions s =
        { text := "Suivant", onClick := Handler.handleNext,
          disabled := !isAnswered s (some (questions.get ⟨s.currentQuestionIndex, hidx⟩).id) } ∧
      ((forwardButton questions s).disabled = false ↔
        isAnswered s (some (questions.get ⟨s.currentQuestionIndex, hidx⟩).id) = true) ∧
      (∀ calls : List (Int × String),
        s.userAnswers = (selectAll calls initialState).userAnswers →
        ((forwardButton questions s).disabled = false ↔
          (questions.get ⟨s.currentQuestionIndex, hidx⟩).id ∈ calls.map Prod.fst))) ∧
    (s.currentQuestionIndex = questions.length - 1 →
      forwardButton questions s =
        { text := "Terminer", onClick := Handler.handleSubmit,
          disabled := !allQuestionsAnswered questions s } ∧
      ((forwardButton questions s).disabled = false ↔
        allQuestionsAnswered questions s = true) ∧
      (∀ calls : List (Int × String),
        s.userAnswers = (selectAll calls initialState).userAnswers →
        ((forwardButton questions s).disabled = false ↔
          ∀ q ∈ questions, q.id ∈ calls.map Prod.fst))) ∧
    (∀ (q1 q2 : Question) (a1 a2 : String), q1.id ≠ q2.id →
      forwardButton [q1, q2] (selectAll [(q1.id, a1)] ⟨1, Object.empty, false⟩) =
        { text := "Terminer", onClick := Handler.handleSubmit, disabled := true } ∧
      forwardButton [q1, q2] (selectAll [(q1.id, a1), (q2.id, a2)] ⟨1, Object.empty, false⟩) =
        { text := "Terminer", onClick := Handler.handleSubmit, disabled := false } ∧
      (click [q1, q2]
        (forwardButton [q1, q2] (selectAll [(q1.id, a1), (q2.id, a2)] ⟨1, Object.empty, false⟩))
        (selectAll [(q1.id, a1), (q2.id, a2)] ⟨1, Object.empty, false⟩)).2 =
        some (handleSubmit (selectAll [(q1.id, a1), (q2.id, a2)] ⟨1, Object.empty, false⟩))) := by
  have hq : currentQuestion questions s =
      some (questions.get ⟨s.currentQuestionIndex, hidx⟩) := by
    unfold currentQuestion
    exact List.getElem?_eq_getElem hidx
  refine ⟨?_, hq, ?_, ?_, ?_⟩
  · unfold render
    rw [if_neg (by simp [hseq])]
    rfl
  · intro hne
    have hlt : (s.currentQuestionIndex : Int) < (questions.length : Int) - 1 := by omega
    have hfb : forwardButton questions s =
        { text := "Suivant", onClick := Handler.handleNext,
          disabled :=
            !isAnswered s (some (questions.get ⟨s.currentQuestionIndex, hidx⟩).id) } := by
      unfold forwardButton
      rw [if_pos hlt, hq]
      rfl
    have hiff : (forwardButton questions s).disabled = false ↔
        isAnswered s (some (questions.get ⟨s.currentQuestionIndex, hidx⟩).id) = true := by
      rw [hfb]
      simp
    refine ⟨hfb, hiff, ?_⟩
    intro calls hcalls
    rw [hiff, isAnswered_congr s _ hcalls]
    exact isAnswered_selectAll calls initialState rfl _
  · intro heq
    have hlt : ¬ (s.currentQuestionIndex : Int) < (questions.length : Int) - 1 := by omega
    have hfb : forwardButton questions s =
        { text := "Terminer", onClick := Handler.handleSubmit,
          disabled := !allQuestionsAnswered questions s } := by
      unfold forwardButton
      rw [if_neg hlt]
    have hiff : (forwardButton questions s).disabled = false ↔
        allQuestionsAnswered questions s = true := by
      rw [hfb]
      simp
    refine ⟨hfb, hiff, ?_⟩
    intro calls hcalls
    rw [hiff, allQuestionsAnswered_congr questions s _ hcalls]
    exact allQuestionsAnswered_selectAll questions calls initialState rfl
  · intro q1 q2 a1 a2 hne
    have hframe1 := (selectAll_frame [(q1.id, a1)] ⟨1, Object.empty, false⟩).1
    have hframe2 := (selectAll_frame [(q1.id, a1), (q2.id, a2)] ⟨1, Object.empty, false⟩).1
    have hall1 : allQuestionsAnswered [q1, q2]
        (selectAll [(q1.id, a1)] ⟨1, Object.empty, false⟩) = false := by
      rw [← Bool.not_eq_true, allQuestionsAnswered_selectAll _ _ _ rfl]
      intro h
      have := h q2 (by simp)
      simp at this
      exact hne this.symm
    have hall2 : allQuestionsAnswered [q1, q2]
        (selectAll [(q1.id, a1), (q2.id, a2)] ⟨1, Object.empty, false⟩) = true := by
      rw [allQuestionsAnswered_selectAll _ _ _ rfl]
      intro q hq
      simp at hq
      rcases hq with rfl | rfl <;> simp
    have hfb1 : forwardButton [q1, q2] (selectAll [(q1.id, a1)] ⟨1, Object.empty, false⟩) =
        { text := "Terminer", onClick := Handler.handleSubmit, disabled := true } := by
      unfold forwardButton
      rw [hframe1, hall1]
      rfl
    have hfb2 : forwardButton [q1, q2]
        (selectAll [(q1.id, a1), (q2.id, a2)] ⟨1, Object.empty, false⟩) =
        { text := "Terminer", onClick := Handler.handleSubmit, disabled := false } := by
      unfold forwardButton
      rw [hframe2, hall2]
      rfl
    refine ⟨hfb1, hfb2, ?_⟩
    rw [hfb2]
    rfl

/-- A run of C8 on three questions at index 1: with only question 1 answered
`Suivant` is disabled, because the current question is question 2; and on the
two-question scenario at the last index. -/
theorem C8_forward_button_gating_witness :
    (selectAll [(1, "a")] ⟨1, Object.empty, false⟩).currentQuestionIndex <
      ([⟨1, "Q1", ["a"]⟩, ⟨2, "Q2", ["c"]⟩, ⟨3, "Q3", ["e"]⟩] : List Question).length ∧
    (selectAll [(1, "a")] ⟨1, Object.empty, false⟩).showAll = false ∧
    currentQuestion [⟨1, "Q1", ["a"]⟩, ⟨2, "Q2", ["c"]⟩, ⟨3, "Q3", ["e"]⟩]
      (selectAll [(1, "a")] ⟨1, Object.empty, false⟩) = some ⟨2, "Q2", ["c"]⟩ ∧
    forwardButton [⟨1, "Q1", ["a"]⟩, ⟨2, "Q2", ["c"]⟩, ⟨3, "Q3", ["e"]⟩]
      (selectAll [(1, "a")] ⟨1, Object.empty, false⟩) =
      { text := "Suivant", onClick := Handler.handleNext, disabled := true } ∧
    forwardButton [⟨1, "Q1", ["a"]⟩, ⟨2, "Q2", ["c"]⟩, ⟨3, "Q3", ["e"]⟩]
      (selectAll [(2, "c")] ⟨1, Object.empty, false⟩) =
      { text := "Suivant", onClick := Handler.handleNext, disabled := false } ∧
    forwardButton [⟨1, "Q1", ["a"]⟩, ⟨2, "Q2", ["c"]⟩]
      (selectAll [(1, "a")] ⟨1, Object.empty, false⟩) =
      { text := "Terminer", onClick := Handler.handleSubmit, disabled := true } :=
  ⟨by decide, by decide,
   (C8_forward_button_gating [⟨1, "Q1", ["a"]⟩, ⟨2, "Q2", ["c"]⟩, ⟨3, "Q3", ["e"]⟩]
     (selectAll [(1, "a")] ⟨1, Object.empty, false⟩) (by decide) (by decide)).2.1.trans
       (by decide),
   ((C8_forward_button_gating [⟨1, "Q1", ["a"]⟩, ⟨2, "Q2", ["c"]⟩, ⟨3, "Q3", ["e"]⟩]
     (selectAll [(1, "a")] ⟨1, Object.empty, false⟩) (by decide) (by decide)).2.2.1
       (by decide)).1.trans (by decide),
   ((C8_forward_button_gating [⟨1, "Q1", ["a"]⟩, ⟨2, "Q2", ["c"]⟩, ⟨3, "Q3", ["e"]⟩]
     (selectAll [(2, "c")] ⟨1, Object.empty, false⟩) (by decide) (by decide)).2.2.1
       (by decide)).1.trans (by decide),
   ((C8_forward_button_gating [⟨1, "Q1", ["a"]⟩, ⟨2, "Q2", ["c"]⟩]
     (selectAll [(1, "a")] ⟨1, Object.empty, false⟩) (by decide) (by decide)).2.2.2.2
       ⟨1, "Q1", ["a"]⟩ ⟨2, "Q2", ["c"]⟩ "a" "c" (by decide)).1⟩

end Questionnaire

/-! ## The claims about the flow controller -/

namespace App

open Questionnaire JS

/-- C6: when `getQuestions` rejects (or resolves without a body),
`loadQuestions` completes without throwing and leaves `currentStep = "error"`
with the fixed load message; when `analyzeResponses` rejects,
`handleAnswerSubmit` completes without throwing and leaves
`currentStep = "error"` with the fixed analysis message.  Neither message
depends on the error that was caught. -/
theorem C6_failures_become_error_state (s : AppState) (err : ApiError)
    (analyze : List FormattedAnswer → Except ApiError AnalysisResult)
    (questionsResponse : Except ApiError (Option QuestionnaireData))
    (userAnswers : List FormattedAnswer) :
    run (loadQuestions ⟨Except.error err, analyze⟩) s =
      (Except.ok (),
        { state := { s with currentStep := "error", error := some loadErrorMessage }
          calls := [ApiCall.getQuestions] }) ∧
    run (loadQuestions ⟨Except.ok none, analyze⟩) s =
      (Except.ok (),
        { state := { s with currentStep := "error", error := some loadErrorMessage }
          calls := [ApiCall.getQuestions] }) ∧
    run (handleAnswerSubmit ⟨questionsResponse, fun _ => Except.error err⟩ userAnswers) s =
      (Except.ok (),
        { state := { s with currentStep := "error", answers := userAnswers,
                            error := some analyzeErrorMessage }
          calls := [ApiCall.analyzeResponses userAnswers] }) ∧
    loadErrorMessage =
      "Impossible de charger les questions" ++ ". Vérifiez que le serveur API est démarré." ∧
    analyzeErrorMessage = "Erreur lors de l\x27analyse des réponses. Veuillez réessayer." :=
  ⟨rfl, rfl, rfl, by decide, rfl⟩

/-- C7: `handleRestart` empties the stored answers, resets the result and the
error to `null`, sets the step to `questionnaire`, keeps the stored question
list and sends no request. -/
theorem C7_restart_clears_answers_and_result (s : AppState) :
    run handleRestart s =
      (Except.ok (),
        { state := { s with answers := [], results := none, error := none,
                            currentStep := "questionnaire" }
          calls := [] }) ∧
    (run handleRestart s).2.state.answers = [] ∧
    (run handleRestart s).2.state.results = none ∧
    (run handleRestart s).2.state.currentStep = "questionnaire" ∧
    (run handleRestart s).2.state.questions = s.questions ∧
    (run handleRestart s).2.calls = [] :=
  ⟨rfl, rfl, rfl, rfl, rfl, rfl⟩

/-- C10: a payload without a `questions` field makes `loadQuestions` store the
empty list.  For the empty list `allQuestionsAnswered` is true in every state,
the sequential view shows `Terminer`, enabled, and a click on it calls
`onSubmit` with the empty array; there is no current question, the index `0` is
not below `total = 0`, and `progress` divides by `0`, which yields `Infinity`. -/
theorem C10_empty_question_list (s : AppState) (st : State)
    (analyze : List FormattedAnswer → Except ApiError AnalysisResult) :
    run (loadQuestions ⟨Except.ok (some ⟨none⟩), analyze⟩) s =
      (Except.ok (),
        { state := { s with currentStep := "questionnaire", questions := [] }
          calls := [ApiCall.getQuestions] }) ∧
    allQuestionsAnswered [] st = true ∧
    (render [] initialState).forward? =
      some { text := "Terminer", onClick := Handler.handleSubmit, disabled := false } ∧
    handleSubmit initialState = [] ∧
    click [] { text := "Terminer", onClick := Handler.handleSubmit, disabled := false }
      initialState = (initialState, some []) ∧
    currentQuestion [] initialState = none ∧
    ¬ (initialState.currentQuestionIndex < ([] : List Question).length) ∧
    ([] : List Question).length = 0 ∧
    progress [] initialState = JSNumber.posInfinity :=
  ⟨rfl, rfl, by decide, by decide, by decide, rfl, by decide, rfl, by decide⟩

end App

/-! ## The order of the submitted answers -/

namespace JS

theorem arrayIndex?_eq_some {k : String} {n : Nat} (h : arrayIndex? k = some n) :
    numberToString (Int.ofNat n) = k ∧ parseInt k = some (Int.ofNat n) := by
  unfold arrayIndex? at h
  split at h
  · rename_i m hm
    split_ifs at h with hc
    have hnm : m = n := Option.some.inj h
    subst hnm
    exact ⟨hc.1, hm⟩
  · exact absurd h (by simp)

theorem parseInt_of_isArrayIndex {k : String} (h : isArrayIndex k = true) :
    parseInt k = some (Int.ofNat ((arrayIndex? k).getD 0)) := by
  unfold isArrayIndex at h
  obtain ⟨n, hn⟩ := Option.isSome_iff_exists.1 h
  rw [hn]
  exact (arrayIndex?_eq_some hn).2

theorem key_eq_of_isArrayIndex {k : String} (h : isArrayIndex k = true) :
    numberToString (Int.ofNat ((arrayIndex? k).getD 0)) = k := by
  unfold isArrayIndex at h
  obtain ⟨n, hn⟩ := Option.isSome_iff_exists.1 h
  rw [hn]
  exact (arrayIndex?_eq_some hn).1

namespace Object

theorem entries_of_all_index (o : Object) (hall : ∀ p ∈ o.props, isArrayIndex p.1 = true) :
    o.entries = o.props.insertionSort indexLE := by
  unfold entries
  have h1 : o.props.filter (fun p => isArrayIndex p.1) = o.props :=
    List.filter_eq_self.2 hall
  have h2 : o.props.filter (fun p => !isArrayIndex p.1) = [] := by
    rw [List.filter_eq_nil_iff]
    intro p hp
    simp [hall p hp]
  rw [h1, h2, List.append_nil]

theorem entries_strictly_ascending (o : Object) (nd : o.keys.Nodup)
    (hall : ∀ p ∈ o.props, isArrayIndex p.1 = true) :
    o.entries.Pairwise (fun p q => entryIndex p < entryIndex q) := by
  have hsorted : o.entries.Pairwise indexLE := by
    rw [entries_of_all_index o hall]
    exact List.sorted_insertionSort indexLE _
  have hnd : o.entries.Pairwise (fun p q => p.1 ≠ q.1) := by
    have : (o.entries.map Prod.fst).Nodup :=
      ((entries_perm o).map Prod.fst).nodup_iff.2 nd
    exact List.pairwise_map.1 this
  refine (hsorted.and hnd).imp_of_mem ?_
  intro p q hp hq hpq
  have hp1 := key_eq_of_isArrayIndex (hall p ((entries_perm o).mem_iff.1 hp))
  have hq1 := key_eq_of_isArrayIndex (hall q ((entries_perm o).mem_iff.1 hq))
  have hle : entryIndex p ≤ entryIndex q := hpq.1
  rcases Nat.lt_or_eq_of_le hle with hlt | heq
  · exact hlt
  · exfalso
    apply hpq.2
    unfold entryIndex at heq
    rw [← hp1, ← hq1, heq]

theorem entries_eq_of_get_eq (o1 o2 : Object) (nd1 : o1.keys.Nodup) (nd2 : o2.keys.Nodup)
    (hall1 : ∀ p ∈ o1.props, isArrayIndex p.1 = true)
    (hall2 : ∀ p ∈ o2.props, isArrayIndex p.1 = true)
    (hget : ∀ k, o1.get k = o2.get k) : o1.entries = o2.entries := by
  have hs1 := entries_strictly_ascending o1 nd1 hall1
  have hs2 := entries_strictly_ascending o2 nd2 hall2
  have hmem : ∀ p, p ∈ o1.entries ↔ p ∈ o2.entries := by
    rintro ⟨k, a⟩
    rw [(entries_perm o1).mem_iff, (entries_perm o2).mem_iff,
      ← lookup_eq_some_iff_mem nd1, ← lookup_eq_some_iff_mem nd2]
    have := hget k
    unfold get at this
    rw [this]
  have hn1 : o1.entries.Nodup := hs1.imp (fun h e => by rw [e] at h; exact Nat.lt_irrefl _ h)
  have hn2 : o2.entries.Nodup := hs2.imp (fun h e => by rw [e] at h; exact Nat.lt_irrefl _ h)
  have hperm : o1.entries.Perm o2.entries := (List.perm_ext_iff_of_nodup hn1 hn2).2 hmem
  haveI : IsAntisymm (String × String) (fun p q => entryIndex p < entryIndex q) :=
    ⟨fun _ _ h1 h2 => absurd h1 (Nat.lt_asymm h2)⟩
  exact List.eq_of_perm_of_sorted hperm hs1 hs2

end Object

end JS

namespace Questionnaire

open JS

theorem all_index_selectAll (calls : List (Int × String)) (s : State)
    (h0 : s.userAnswers = Object.empty)
    (hrange : ∀ c ∈ calls, 0 ≤ c.1 ∧ c.1 < 4294967295) :
    ∀ p ∈ (selectAll calls s).userAnswers.props, isArrayIndex p.1 = true := by
  intro p hp
  obtain ⟨id, hid, hk⟩ := (selectAll_invariant calls s h0).2.2 p.1 (List.mem_map_of_mem Prod.fst hp)
  obtain ⟨c, hc, rfl⟩ := List.mem_map.1 hid
  have hr := hrange c hc
  have hr2 : 0 ≤ c.1 ∧ c.1 < 2 ^ 32 - 1 := ⟨hr.1, by norm_num; exact hr.2⟩
  unfold isArrayIndex
  rw [hk, arrayIndex?_numberToString _ hr2]
  rfl

/-- C9, as the code has it: when every selected id is an array index
(`0 ≤ id ≤ 2^32 - 2`), the entries emitted by `handleSubmit` are in strictly
ascending order of `question_id`, and two selection sequences that leave the
same answer mapping make `handleSubmit` emit the same sequence. -/
theorem C9_submit_order_for_array_index_ids (calls calls2 : List (Int × String))
    (i i2 : Nat) (b b2 : Bool)
    (hrange : ∀ c ∈ calls, 0 ≤ c.1 ∧ c.1 < 4294967295)
    (hrange2 : ∀ c ∈ calls2, 0 ≤ c.1 ∧ c.1 < 4294967295) :
    ((handleSubmit (selectAll calls ⟨i, Object.empty, b⟩)).map
      (fun e => e.question_id)).Pairwise numLT ∧
    ((∀ k, (selectAll calls ⟨i, Object.empty, b⟩).userAnswers.get k =
        (selectAll calls2 ⟨i2, Object.empty, b2⟩).userAnswers.get k) →
      handleSubmit (selectAll calls ⟨i, Object.empty, b⟩) =
        handleSubmit (selectAll calls2 ⟨i2, Object.empty, b2⟩)) ∧
    ((∀ id, lastAnswer calls id = lastAnswer calls2 id) →
      handleSubmit (selectAll calls ⟨i, Object.empty, b⟩) =
        handleSubmit (selectAll calls2 ⟨i2, Object.empty, b2⟩)) := by
  have nd1 := (selectAll_invariant calls ⟨i, Object.empty, b⟩ rfl).1
  have nd2 := (selectAll_invariant calls2 ⟨i2, Object.empty, b2⟩ rfl).1
  have hall1 := all_index_selectAll calls ⟨i, Object.empty, b⟩ rfl hrange
  have hall2 := all_index_selectAll calls2 ⟨i2, Object.empty, b2⟩ rfl hrange2
  have hget : (∀ k, (selectAll calls ⟨i, Object.empty, b⟩).userAnswers.get k =
        (selectAll calls2 ⟨i2, Object.empty, b2⟩).userAnswers.get k) →
      handleSubmit (selectAll calls ⟨i, Object.empty, b⟩) =
        handleSubmit (selectAll calls2 ⟨i2, Object.empty, b2⟩) := by
    intro h
    unfold handleSubmit
    rw [Object.entries_eq_of_get_eq _ _ nd1 nd2 hall1 hall2 h]
  refine ⟨?_, hget, ?_⟩
  · unfold handleSubmit
    rw [List.map_map, List.pairwise_map]
    refine (Object.entries_strictly_ascending _ nd1 hall1).imp_of_mem ?_
    intro p q hp hq hlt
    have hpp := parseInt_of_isArrayIndex (hall1 p ((Object.entries_perm _).mem_iff.1 hp))
    have hqq := parseInt_of_isArrayIndex (hall1 q ((Object.entries_perm _).mem_iff.1 hq))
    change parseInt p.1 = some (Int.ofNat (entryIndex p)) at hpp
    change parseInt q.1 = some (Int.ofNat (entryIndex q)) at hqq
    simp only [Function.comp, numLT, hpp, hqq, Option.isSome_some, Option.getD_some, true_and]
    exact Int.ofNat_lt.2 hlt
  · intro h
    apply hget
    intro k
    obtain ⟨_, hg1, hk1⟩ := selectAll_invariant calls ⟨i, Object.empty, b⟩ rfl
    obtain ⟨_, hg2, hk2⟩ := selectAll_invariant calls2 ⟨i2, Object.empty, b2⟩ rfl
    by_cases hk : ∃ id : Int, k = numberToString id
    · obtain ⟨id, rfl⟩ := hk
      rw [hg1, hg2, h]
    · have hn1 : (selectAll calls ⟨i, Object.empty, b⟩).userAnswers.get k = none := by
        unfold Object.get
        rw [← Option.not_isSome_iff_eq_none, lookup_isSome_iff_key]
        intro hmem
        obtain ⟨id, _, e⟩ := hk1 k hmem
        exact hk ⟨id, e⟩
      have hn2 : (selectAll calls2 ⟨i2, Object.empty, b2⟩).userAnswers.get k = none := by
        unfold Object.get
        rw [← Option.not_isSome_iff_eq_none, lookup_isSome_iff_key]
        intro hmem
        obtain ⟨id, _, e⟩ := hk2 k hmem
        exact hk ⟨id, e⟩
      rw [hn1, hn2]

/-- A run of C9 within the array-index range: two orders of selection. -/
theorem C9_submit_order_for_array_index_ids_witness :
    (∀ c ∈ ([(7, "a"), (3, "b"), (7, "c")] : List (Int × String)), 0 ≤ c.1 ∧ c.1 < 4294967295) ∧
    (∀ c ∈ ([(3, "b"), (7, "c")] : List (Int × String)), 0 ≤ c.1 ∧ c.1 < 4294967295) ∧
    handleSubmit (selectAll [(7, "a"), (3, "b"), (7, "c")] ⟨0, Object.empty, false⟩) =
      [⟨some 3, "b"⟩, ⟨some 7, "c"⟩] ∧
    handleSubmit (selectAll [(7, "a"), (3, "b"), (7, "c")] ⟨0, Object.empty, false⟩) =
      handleSubmit (selectAll [(3, "b"), (7, "c")] ⟨0, Object.empty, false⟩) :=
  ⟨by decide, by decide, by decide,
   (C9_submit_order_for_array_index_ids [(7, "a"), (3, "b"), (7, "c")] [(3, "b"), (7, "c")]
     0 0 false false (by decide) (by decide)).2.1 (by
       intro k
       simp only [selectAll, List.foldl]
       rw [get_handleAnswerSelect _ _ _ (by decide), get_handleAnswerSelect _ _ _ (by decide),
         get_handleAnswerSelect _ _ _ (by decide), get_handleAnswerSelect _ _ _ (by decide),
         get_handleAnswerSelect _ _ _ (by decide)]
       by_cases h7 : k = toPropertyKey (some 7) <;> by_cases h3 : k = toPropertyKey (some 3) <;>
         simp [h7, h3])⟩

/-- C9 as stated fails: the ids `4294967296` and `4294967295` are non-negative
integers that are not array indices, so their keys are enumerated in order of
creation.  The two orders of selection leave the same answer mapping, yet
`handleSubmit` emits different sequences, and the first is not ascending. -/
theorem C9_counterexample :
    (∀ c ∈ ([(4294967296, "a"), (4294967295, "b")] : List (Int × String)), 0 ≤ c.1) ∧
    (∀ k, (selectAll [(4294967296, "a"), (4294967295, "b")] initialState).userAnswers.get k =
      (selectAll [(4294967295, "b"), (4294967296, "a")] initialState).userAnswers.get k) ∧
    handleSubmit (selectAll [(4294967296, "a"), (4294967295, "b")] initialState) =
      [⟨some 4294967296, "a"⟩, ⟨some 4294967295, "b"⟩] ∧
    handleSubmit (selectAll [(4294967295, "b"), (4294967296, "a")] initialState) =
      [⟨some 4294967295, "b"⟩, ⟨some 4294967296, "a"⟩] ∧
    ¬ ((handleSubmit (selectAll [(4294967296, "a"), (4294967295, "b")] initialState)).map
      (fun e => e.question_id)).Pairwise numLT ∧
    handleSubmit (selectAll [(4294967296, "a"), (4294967295, "b")] initialState) ≠
      handleSubmit (selectAll [(4294967295, "b"), (4294967296, "a")] initialState) := by
  refine ⟨by decide, ?_, by decide, by decide, by decide, by decide⟩
  intro k
  simp only [selectAll, List.foldl]
  rw [get_handleAnswerSelect _ _ _ (by decide), get_handleAnswerSelect _ _ _ (by decide),
    get_handleAnswerSelect _ _ _ (by decide), get_handleAnswerSelect _ _ _ (by decide)]
  have hne : toPropertyKey (some 4294967296) ≠ toPropertyKey (some 4294967295) := by decide
  by_cases h1 : k = toPropertyKey (some 4294967296) <;>
    by_cases h2 : k = toPropertyKey (some 4294967295) <;> simp [h1, h2, hne, hne.symm]

end Questionnaire
